import Mathlib

/-!
# Hive: a region (arena) allocator

A shallow embedding of `src/src/hive.h` and `src/src/hive.c`.

* `size_t` and `uintptr_t` values are natural numbers; every C operation that can wrap is
  written with an explicit reduction modulo `2 ^ 64`.
* A `struct hive_cell *` is an `Option hive_cell`: `none` is `NULL`, `some c` is a pointer to the
  control block `c`, whose own address is kept in `c.addr`.
* The `#if defined(DEBUG)` blocks are selected by a `DEBUG : Bool` argument.
* Results of the external collaborators (`sysconf`, `reaper_calloc`, `reaper_realloc`, `mmap`)
  are arguments of the operation that calls them; the calls an operation issues are returned as a
  list of `hive_event`. Diagnostics written to `stderr` are not modelled.
* `hive_cell_create` is given in three parts, in source order: `hive_cell_create_name`
  (lines 231-234), `hive_cell_create_rounding` (lines 241-245) and `hive_cell_create_at`
  (lines 247-281).
-/

namespace Hive

/-! ## Machine arithmetic on `size_t` -/

/-- Number of values of a 64-bit `size_t`. -/
def SIZE_MOD : Nat := 2 ^ 64

/-- C `a + b` on `size_t`. -/
def size_add (a b : Nat) : Nat := (a + b) % SIZE_MOD

/-- C `a - b` on `size_t`. -/
def size_sub (a b : Nat) : Nat := (a % SIZE_MOD + (SIZE_MOD - b % SIZE_MOD)) % SIZE_MOD

/-- C `a * b` on `size_t`. -/
def size_mul (a b : Nat) : Nat := (a * b) % SIZE_MOD

/-- C `~a` on `size_t`. -/
def size_not (a : Nat) : Nat := SIZE_MOD - (a % SIZE_MOD + 1)

/-! ## hive.h -/

/-- The inline function `hive_nxtpow2` of hive.h. -/
def hive_nxtpow2 (v : Nat) : Nat :=
  if v = 0 then 1
  else
    let v := size_sub v 1
    let v := v ||| (v >>> 1)
    let v := v ||| (v >>> 2)
    let v := v ||| (v >>> 4)
    let v := v ||| (v >>> 8)
    let v := v ||| (v >>> 16)
    let v := v ||| (v >>> 32)
    size_add v 1

/-- The inline function `hive_align_up` of hive.h: `(v + align - 1) & ~(align - 1)`. -/
def hive_align_up (v align : Nat) : Nat :=
  size_sub (size_add v align) 1 &&& size_not (size_sub align 1)

/-! ## hive.c: data -/

/-- The control block `struct hive_cell`; `addr` is the address of the block itself. -/
structure hive_cell where
  addr : Nat
  base : Nat
  capacity : Nat
  used : Nat
  total_allocs : Nat
  largest_alloc : Nat
  peak : Nat
  page_size : Nat
  name : String
deriving DecidableEq, Repr

/-- The lifecycle states `enum hive_state`. -/
inductive hive_state where
  | HIVE_STATE_OFF
  | HIVE_STATE_RUNNING
  | HIVE_STATE_SHUTTING_DOWN
deriving DecidableEq, Repr

/-- The array `struct hive_registry`: `cells` holds the entries `cells[0 .. count)`, so that
`count` is `cells.length`; `capacity` is the number of slots of the backing array. -/
structure hive_registry where
  cells : List Nat
  capacity : Nat
deriving DecidableEq, Repr

/-- The file-scope variables of hive.c. -/
structure hive_globals where
  g_hive_state : hive_state
  g_hive_cursor : Nat
  g_sys_pagesize : Nat
  g_hive_registry : hive_registry
deriving DecidableEq, Repr

/-- The zero-initialised globals a process starts with. -/
def hive_globals_zero : hive_globals :=
  { g_hive_state := hive_state.HIVE_STATE_OFF
    g_hive_cursor := 0
    g_sys_pagesize := 0
    g_hive_registry := { cells := [], capacity := 0 } }

def HIVE_ADDR_HINT : Nat := 0x700000000000

def HIVE_PAGE_SIZE_HUGE : Nat := 0x00200000

/-- The advice argument of `madvise`. -/
inductive madv where
  | MADV_DONTNEED
  | MADV_HUGEPAGE
deriving DecidableEq, Repr

/-- Calls to the collaborators that an operation issues, and the fetch-and-add on the cursor
(which yields the address hint `old` and advances the cursor by `operand`). -/
inductive hive_event where
  | cursor_fetch_add (old operand : Nat)
  | mmap (addr length : Nat)
  | madvise (addr length : Nat) (advice : madv)
  | munmap (addr length : Nat)
  | reaper_init
  | reaper_shutdown
  | reaper_free (ptr : Nat)
  | free (ptr : Nat)
deriving DecidableEq, Repr

/-! ## hive.c: the registry -/

/-- The function `register_cell`; `realloc_ok` tells whether `reaper_realloc`, if it is called,
returns a non-null block. -/
def register_cell (reg : hive_registry) (cell : Option hive_cell) (realloc_ok : Bool) :
    hive_registry :=
  match cell with
  | none => reg
  | some c =>
    if reg.cells.length ≥ reg.capacity then
      let new_cap := if reg.capacity ≠ 0 then size_mul reg.capacity 2 else 256
      if new_cap ≤ reg.capacity then reg
      else if realloc_ok = false then reg
      else { cells := reg.cells ++ [c.addr], capacity := new_cap }
    else { reg with cells := reg.cells ++ [c.addr] }

/-- The function `unregister_cell`: the first entry equal to `cell` is overwritten with the last
entry and the count is decremented. -/
def unregister_cell (reg : hive_registry) (cell : Option hive_cell) : hive_registry :=
  match cell with
  | none => reg
  | some c =>
    let i := reg.cells.indexOf c.addr
    if i < reg.cells.length then
      { reg with
        cells := (reg.cells.set i (reg.cells.getD (reg.cells.length - 1) 0)).take
          (reg.cells.length - 1) }
    else reg

/-! ## hive.c: cells -/

/-- Lines 241-245 of `hive_cell_create`: the alignment selected and the capacity of the cell. -/
def hive_cell_create_rounding (g_sys_pagesize capacity : Nat) : Nat × Nat :=
  let capacity := hive_nxtpow2 capacity
  let alignment := if capacity ≥ HIVE_PAGE_SIZE_HUGE then HIVE_PAGE_SIZE_HUGE else g_sys_pagesize
  let capacity := hive_align_up capacity alignment
  (alignment, capacity)

/-- Lines 247-281 of `hive_cell_create`, the part after the rounding, as a function of the
`alignment` and the `capacity` computed in lines 241-245. `calloc_res` is the block
`reaper_calloc` returns, `mmap_res` the address `mmap` returns (`none` is `MAP_FAILED`). -/
def hive_cell_create_at (DEBUG : Bool) (g : hive_globals) (name : String)
    (alignment capacity : Nat) (calloc_res : Option Nat) (mmap_res : Option Nat)
    (realloc_ok : Bool) : Option hive_cell × hive_globals × List hive_event :=
  let hint := g.g_hive_cursor
  let g := { g with g_hive_cursor := size_add g.g_hive_cursor capacity }
  let ev := [hive_event.cursor_fetch_add hint capacity]
  match calloc_res with
  | none => (none, g, ev)
  | some block =>
    let ev := ev ++ [hive_event.mmap hint capacity]
    match mmap_res with
    | none => (none, g, ev ++ [hive_event.free block])
    | some ptr =>
      let cell : hive_cell :=
        { addr := block, base := ptr, capacity := capacity, used := 0, total_allocs := 0,
          largest_alloc := 0, peak := 0, page_size := if DEBUG then alignment else 0,
          name := name }
      let ev := if alignment = HIVE_PAGE_SIZE_HUGE then
          ev ++ [hive_event.madvise cell.base cell.capacity madv.MADV_HUGEPAGE]
        else ev
      let g := { g with g_hive_registry := register_cell g.g_hive_registry (some cell) realloc_ok }
      (some cell, g, ev)

/-- Lines 231-234 of `hive_cell_create`: a `NULL` or empty name becomes `"hive_cell"`. -/
def hive_cell_create_name (name : Option String) : String :=
  match name with
  | none => "hive_cell"
  | some s => if s = "" then "hive_cell" else s

/-- The function `hive_cell_create`. `calloc_res` is the block `reaper_calloc` returns,
`mmap_res` the address `mmap` returns (`none` is `MAP_FAILED`), `realloc_ok` tells whether
`reaper_realloc` succeeds. -/
def hive_cell_create (DEBUG : Bool) (g : hive_globals) (name : Option String) (capacity : Nat)
    (calloc_res : Option Nat) (mmap_res : Option Nat) (realloc_ok : Bool) :
    Option hive_cell × hive_globals × List hive_event :=
  let name := hive_cell_create_name name
  if capacity = 0 then (none, g, [])
  else
    let alignment := (hive_cell_create_rounding g.g_sys_pagesize capacity).1
    let capacity := (hive_cell_create_rounding g.g_sys_pagesize capacity).2
    hive_cell_create_at DEBUG g name alignment capacity calloc_res mmap_res realloc_ok

/-- The function `hive_cell_destroy`. -/
def hive_cell_destroy (g : hive_globals) (cell : Option hive_cell) :
    hive_globals × List hive_event :=
  match cell with
  | none => (g, [])
  | some c =>
    let g := { g with g_hive_registry := unregister_cell g.g_hive_registry (some c) }
    let ev := if c.base ≠ 0 then [hive_event.munmap c.base c.capacity] else []
    (g, ev ++ [hive_event.reaper_free c.addr])

/-- The function `hive_init`; `sysconf_pagesize` is `(size_t) sysconf(_SC_PAGESIZE)`. -/
def hive_init (g : hive_globals) (sysconf_pagesize : Nat) : Bool × hive_globals × List hive_event :=
  if g.g_hive_state ≠ hive_state.HIVE_STATE_OFF then (false, g, [])
  else
    let g := { g with g_hive_state := hive_state.HIVE_STATE_RUNNING }
    let g := { g with g_sys_pagesize := sysconf_pagesize }
    let g := if g.g_hive_cursor = 0 then { g with g_hive_cursor := HIVE_ADDR_HINT } else g
    (true, g, [hive_event.reaper_init])

/-- The function `hive_cell_align_alloc`: the pointer returned (`none` is `NULL`) and the cell
after the call. -/
def hive_cell_align_alloc (DEBUG : Bool) (cell : Option hive_cell) (size align : Nat) :
    Option Nat × Option hive_cell :=
  match cell with
  | none => (none, none)
  | some c =>
    if size = 0 then (none, some c)
    else
      let align := if align < 16 then 16 else align
      let start_offset := size_sub (size_add c.used align) 1 &&& size_not (size_sub align 1)
      let end_offset := size_add start_offset size
      if end_offset > c.capacity then (none, some c)
      else
        let ptr := c.base + start_offset
        let c := { c with used := end_offset }
        let c := if DEBUG then
            { c with
              total_allocs := size_add c.total_allocs 1
              largest_alloc := if size > c.largest_alloc then size else c.largest_alloc
              peak := if c.used > c.peak then c.used else c.peak }
          else c
        (some ptr, some c)

/-- The function `hive_cell_alloc`. -/
def hive_cell_alloc (DEBUG : Bool) (cell : Option hive_cell) (size : Nat) :
    Option Nat × Option hive_cell :=
  hive_cell_align_alloc DEBUG cell size 16

/-- The function `hive_cell_soft_reset`. -/
def hive_cell_soft_reset (cell : Option hive_cell) : Option hive_cell :=
  match cell with
  | none => none
  | some c => some { c with used := 0 }

/-- The function `hive_cell_reset`. -/
def hive_cell_reset (DEBUG : Bool) (cell : Option hive_cell) : Option hive_cell × List hive_event :=
  match cell with
  | none => (none, [])
  | some c =>
    if c.used = 0 then (some c, [])
    else
      let ev := [hive_event.madvise c.base c.used madv.MADV_DONTNEED]
      let c := { c with used := 0 }
      let c := if DEBUG then { c with total_allocs := 0 } else c
      (some c, ev)

/-! ## Runs -/

/-- A sequence of `hive_cell_align_alloc` calls on one cell, each given as `(size, align)`: the
pointers returned, in call order, and the cell after the last call. -/
def hive_cell_align_alloc_seq (DEBUG : Bool) (cell : Option hive_cell) :
    List (Nat × Nat) → List (Option Nat) × Option hive_cell
  | [] => ([], cell)
  | (size, align) :: rest =>
    let r := hive_cell_align_alloc DEBUG cell size align
    let t := hive_cell_align_alloc_seq DEBUG r.2 rest
    (r.1 :: t.1, t.2)

/-- The globals after the first `hive_init` of a process that has 4096-byte pages. -/
def hive_globals_running : hive_globals := (hive_init hive_globals_zero 4096).2.1

/-- The cell `hive_cell_create(NULL, 4096)` returns on `hive_globals_running` when the control
block is at `0x1000` and the mapping is placed at the hint. -/
def hive_cell_fresh : hive_cell :=
  { addr := 0x1000, base := HIVE_ADDR_HINT, capacity := 4096, used := 0, total_allocs := 0,
    largest_alloc := 0, peak := 0, page_size := 0, name := "hive_cell" }

/-- The cell `hive_cell_fresh` as a debug build creates it: `page_size` holds the alignment. -/
def hive_cell_fresh_debug : hive_cell := { hive_cell_fresh with page_size := 4096 }

/-- One call of the creation and destruction interface, with the results of the collaborators
the call consults. -/
inductive hive_op where
  | create (name : Option String) (capacity : Nat) (calloc_res mmap_res : Option Nat)
      (realloc_ok : Bool)
  | destroy (cell : Option hive_cell)
deriving DecidableEq, Repr

/-- The state of a run of calls: the globals, the addresses of the cells created and not yet
destroyed (in creation order), and the events issued so far. -/
structure hive_run_state where
  g : hive_globals
  live : List Nat
  events : List hive_event
deriving DecidableEq, Repr

/-- One call of a run. -/
def hive_step (DEBUG : Bool) (s : hive_run_state) : hive_op → hive_run_state
  | hive_op.create name capacity calloc_res mmap_res realloc_ok =>
    let r := hive_cell_create DEBUG s.g name capacity calloc_res mmap_res realloc_ok
    { g := r.2.1
      live := match r.1 with
        | some c => s.live ++ [c.addr]
        | none => s.live
      events := s.events ++ r.2.2 }
  | hive_op.destroy cell =>
    let r := hive_cell_destroy s.g cell
    { g := r.1
      live := match cell with
        | some c => s.live.erase c.addr
        | none => s.live
      events := s.events ++ r.2 }

/-- A run of calls, in their serialized order. -/
def hive_run (DEBUG : Bool) (s : hive_run_state) : List hive_op → hive_run_state
  | [] => s
  | op :: rest => hive_run DEBUG (hive_step DEBUG s op) rest

/-- The state in which a run starts: no cell created yet, nothing issued. -/
def hive_run_start (g : hive_globals) : hive_run_state :=
  { g := g, live := [], events := [] }

/-- A call the collaborators and the caller can make with the given cells live: registry growth
succeeds, `reaper_calloc` does not return the block of a live cell, and the cell destroyed is a
live one. -/
def hive_op_ok (live : List Nat) : hive_op → Bool
  | hive_op.create _ _ calloc_res _ realloc_ok =>
    realloc_ok && (match calloc_res with
      | some block => !live.contains block
      | none => true)
  | hive_op.destroy cell =>
    match cell with
    | some c => live.contains c.addr
    | none => false

/-- Every call of the run is `hive_op_ok` in the state it is made in. -/
def hive_ops_ok (DEBUG : Bool) (s : hive_run_state) : List hive_op → Bool
  | [] => true
  | op :: rest => hive_op_ok s.live op && hive_ops_ok DEBUG (hive_step DEBUG s op) rest

/-- The capacities requested by the creation calls of a run. -/
def create_capacities : List hive_op → List Nat
  | [] => []
  | hive_op.create _ capacity _ _ _ :: rest => capacity :: create_capacities rest
  | hive_op.destroy _ :: rest => create_capacities rest

/-- The address hints the cursor handed out, each with the amount the cursor advanced by (the
rounded capacity of the cell): the `cursor_fetch_add` events, in order. -/
def cursor_hints : List hive_event → List (Nat × Nat)
  | [] => []
  | hive_event.cursor_fetch_add old operand :: rest => (old, operand) :: cursor_hints rest
  | _ :: rest => cursor_hints rest

/-- The hints a cursor at `cur` hands out for a list of requested capacities: requests of 0 are
rejected before the cursor, every other request takes the current value and advances it. -/
def cursor_walk (g_sys_pagesize cur : Nat) : List Nat → List (Nat × Nat)
  | [] => []
  | capacity :: rest =>
    if capacity = 0 then cursor_walk g_sys_pagesize cur rest
    else
      (cur, (hive_cell_create_rounding g_sys_pagesize capacity).2) ::
        cursor_walk g_sys_pagesize
          (size_add cur (hive_cell_create_rounding g_sys_pagesize capacity).2) rest

/-! ## Lifecycle and cell runs -/

/-- The function `hive_shutdown`. -/
def hive_shutdown (g : hive_globals) : hive_globals × List hive_event :=
  if g.g_hive_state ≠ hive_state.HIVE_STATE_RUNNING then (g, [])
  else ({ g with g_hive_state := hive_state.HIVE_STATE_SHUTTING_DOWN }, [hive_event.reaper_shutdown])

/-- The numeric value of a lifecycle state in `enum hive_state`. -/
def hive_state_value : hive_state → Nat
  | hive_state.HIVE_STATE_OFF => 0
  | hive_state.HIVE_STATE_RUNNING => 1
  | hive_state.HIVE_STATE_SHUTTING_DOWN => 2

/-- One call of the lifecycle interface; `init` carries the page size `sysconf` reports. -/
inductive hive_lifecycle_call where
  | init (sysconf_pagesize : Nat)
  | shutdown
deriving DecidableEq, Repr

/-- One lifecycle call applied to the globals. -/
def hive_lifecycle_step (g : hive_globals) : hive_lifecycle_call → hive_globals
  | hive_lifecycle_call.init sysconf_pagesize => (hive_init g sysconf_pagesize).2.1
  | hive_lifecycle_call.shutdown => (hive_shutdown g).1

/-- A sequence of lifecycle calls, in order. -/
def hive_lifecycle_run (g : hive_globals) : List hive_lifecycle_call → hive_globals
  | [] => g
  | call :: rest => hive_lifecycle_run (hive_lifecycle_step g call) rest

/-- One call on a cell: an allocation or a reset. -/
inductive hive_cell_op where
  | align_alloc (size align : Nat)
  | alloc (size : Nat)
  | soft_reset
  | reset
deriving DecidableEq, Repr

/-- One call applied to a cell. -/
def hive_cell_step (DEBUG : Bool) (cell : Option hive_cell) : hive_cell_op → Option hive_cell
  | hive_cell_op.align_alloc size align => (hive_cell_align_alloc DEBUG cell size align).2
  | hive_cell_op.alloc size => (hive_cell_alloc DEBUG cell size).2
  | hive_cell_op.soft_reset => hive_cell_soft_reset cell
  | hive_cell_op.reset => (hive_cell_reset DEBUG cell).1

/-- A sequence of calls on one cell, in order. -/
def hive_cell_run (DEBUG : Bool) (cell : Option hive_cell) : List hive_cell_op → Option hive_cell
  | [] => cell
  | op :: rest => hive_cell_run DEBUG (hive_cell_step DEBUG cell op) rest

/-- The mappings requested from the OS: address and length of each `mmap` call, in order. -/
def mmap_requests : List hive_event → List (Nat × Nat)
  | [] => []
  | hive_event.mmap addr length :: rest => (addr, length) :: mmap_requests rest
  | _ :: rest => mmap_requests rest

/-- The address range a creation reserves for the cell it returns: the hint it took from the
cursor and the capacity of the cell; empty when no cell is returned. -/
def created_range (hint : Nat) : Option hive_cell → List (Nat × Nat)
  | some c => [(hint, c.capacity)]
  | none => []

/-- The ranges `(hint, capacity)` of the cells the creations of a run return, in call order; the
hint of a creation is the value the cursor has when `hive_cell_create` is called. -/
def created_ranges (DEBUG : Bool) (s : hive_run_state) : List hive_op → List (Nat × Nat)
  | [] => []
  | hive_op.create name capacity calloc_res mmap_res realloc_ok :: rest =>
    created_range s.g.g_hive_cursor
        (hive_cell_create DEBUG s.g name capacity calloc_res mmap_res realloc_ok).1 ++
      created_ranges DEBUG
        (hive_step DEBUG s (hive_op.create name capacity calloc_res mmap_res realloc_ok)) rest
  | hive_op.destroy cell :: rest =>
    created_ranges DEBUG (hive_step DEBUG s (hive_op.destroy cell)) rest

/-- A run of five creations and one destruction used as an example: a cell of 1000 bytes (which
is `hive_cell_fresh`), a request for which `reaper_calloc` fails, a request of 0 bytes, a request
for which `mmap` fails, a cell of 8192 bytes, and the destruction of the first cell. -/
def hive_ops_example : List hive_op :=
  [hive_op.create none 1000 (some 0x1000) (some 0x700000000000) true,
    hive_op.create (some "b") 0x200001 none none true,
    hive_op.create (some "c") 0 (some 0x2000) none true,
    hive_op.create (some "d") 4097 (some 0x2000) none true,
    hive_op.create (some "e") 8192 (some 0x3000) (some 0x700000403000) true,
    hive_op.destroy (some hive_cell_fresh)]

/-! ## Theorems: machine arithmetic -/

theorem size_add_lt (a b : Nat) : size_add a b < 2 ^ 64 := by
  unfold size_add SIZE_MOD
  exact Nat.mod_lt _ (by norm_num)

theorem size_not_eq {x : Nat} (hx : x < 2 ^ 64) : size_not x = 2 ^ 64 - (x + 1) := by
  unfold size_not SIZE_MOD
  rw [Nat.mod_eq_of_lt hx]

theorem and_size_not_self (x : Nat) (hx : x < 2 ^ 64) : x &&& size_not x = 0 := by
  apply Nat.eq_of_testBit_eq
  intro i
  rw [size_not_eq hx, Nat.testBit_and, Nat.testBit_two_pow_sub_succ hx]
  cases x.testBit i <;> simp

/-! ## Theorems: bump allocation -/

theorem align_alloc_fail (DEBUG : Bool) (c : hive_cell) (size align : Nat)
    (h : size = 0 ∨ c.capacity < size_add (size_sub (size_add c.used (if align < 16 then 16 else align)) 1
        &&& size_not (size_sub (if align < 16 then 16 else align) 1)) size) :
    hive_cell_align_alloc DEBUG (some c) size align = (none, some c) := by
  unfold hive_cell_align_alloc
  rcases h with h | h
  · simp [h]
  · by_cases hs : size = 0
    · simp [hs]
    · simp only [hs, if_false]
      rw [if_pos h]

theorem align_alloc_ok (DEBUG : Bool) (c : hive_cell) (size align : Nat) (hs : size ≠ 0)
    (h : size_add (size_sub (size_add c.used (if align < 16 then 16 else align)) 1
        &&& size_not (size_sub (if align < 16 then 16 else align) 1)) size ≤ c.capacity) :
    ∃ c', hive_cell_align_alloc DEBUG (some c) size align =
        (some (c.base + (size_sub (size_add c.used (if align < 16 then 16 else align)) 1
          &&& size_not (size_sub (if align < 16 then 16 else align) 1))), some c') ∧
      c'.used = size_add (size_sub (size_add c.used (if align < 16 then 16 else align)) 1
          &&& size_not (size_sub (if align < 16 then 16 else align) 1)) size ∧
      c'.base = c.base ∧ c'.capacity = c.capacity ∧ c'.name = c.name ∧ c'.addr = c.addr := by
  unfold hive_cell_align_alloc
  simp only [hs, if_false]
  rw [if_neg (Nat.not_lt.mpr h)]
  cases DEBUG <;> simp

theorem hive_cell_fresh_created :
    (hive_cell_create false hive_globals_running none 4096 (some 0x1000) (some HIVE_ADDR_HINT)
      true).1 = some hive_cell_fresh := by
  decide

/-- C1, evaluated on the code: on the fresh 4096-byte cell the three calls
`(16, 16)`, `(2^64 - 16, 16)`, `(16, 16)` all succeed; the first and the third return the same
offset 0 with 16 bytes each, so their ranges coincide, and the second range `[16, 16 + (2^64 - 16))`
ends beyond the capacity. -/
theorem align_alloc_seq_ranges_overlap :
    hive_cell_align_alloc_seq false (some hive_cell_fresh)
        [(16, 16), (2 ^ 64 - 16, 16), (16, 16)] =
      ([some (hive_cell_fresh.base + 0), some (hive_cell_fresh.base + 16),
          some (hive_cell_fresh.base + 0)],
        some { hive_cell_fresh with used := 16 }) ∧
    ¬ (16 + (2 ^ 64 - 16) ≤ hive_cell_fresh.capacity) := by
  decide

/-- C2, evaluated on the code: with `used = 16`, `capacity = 4096`, `size = 2^64 - 16` and
`align = 16` the unbounded end offset `round_up(16, 16) + size = 2^64` exceeds the capacity, yet
the call returns `base + 16` and sets `used` to 0. -/
theorem align_alloc_end_offset_wraps :
    (16 + 15) / 16 * 16 + (2 ^ 64 - 16) > hive_cell_fresh.capacity ∧
    hive_cell_align_alloc false (some { hive_cell_fresh with used := 16 }) (2 ^ 64 - 16) 16 =
      (some (hive_cell_fresh.base + 16), some { hive_cell_fresh with used := 0 }) := by
  decide

/-- C5: `used <= capacity` holds for every cell `hive_cell_create` returns and is preserved by
`hive_cell_align_alloc`, `hive_cell_alloc`, `hive_cell_soft_reset` and `hive_cell_reset`, for all
arguments. -/
theorem used_le_capacity_invariant (DEBUG : Bool) :
    (∀ g name capacity calloc_res mmap_res realloc_ok c,
      (hive_cell_create DEBUG g name capacity calloc_res mmap_res realloc_ok).1 = some c →
        c.used = 0 ∧ c.used ≤ c.capacity) ∧
    (∀ c : hive_cell, c.used ≤ c.capacity →
      (∀ size align, ∃ c', (hive_cell_align_alloc DEBUG (some c) size align).2 = some c' ∧
        c'.used ≤ c'.capacity ∧ c'.capacity = c.capacity) ∧
      (∀ size, ∃ c', (hive_cell_alloc DEBUG (some c) size).2 = some c' ∧
        c'.used ≤ c'.capacity ∧ c'.capacity = c.capacity) ∧
      (∃ c', hive_cell_soft_reset (some c) = some c' ∧
        c'.used ≤ c'.capacity ∧ c'.capacity = c.capacity) ∧
      (∃ c', (hive_cell_reset DEBUG (some c)).1 = some c' ∧
        c'.used ≤ c'.capacity ∧ c'.capacity = c.capacity)) := by
  have key : ∀ c : hive_cell, c.used ≤ c.capacity → ∀ size align,
      ∃ c', (hive_cell_align_alloc DEBUG (some c) size align).2 = some c' ∧
        c'.used ≤ c'.capacity ∧ c'.capacity = c.capacity := by
    intro c hc size align
    by_cases h : size = 0 ∨ c.capacity < size_add (size_sub (size_add c.used
        (if align < 16 then 16 else align)) 1
        &&& size_not (size_sub (if align < 16 then 16 else align) 1)) size
    · exact ⟨c, by rw [align_alloc_fail DEBUG c size align h], hc, rfl⟩
    · rw [not_or, Nat.not_lt] at h
      obtain ⟨c', h1, h2, _, h4, _⟩ := align_alloc_ok DEBUG c size align h.1 h.2
      exact ⟨c', by rw [h1], by rw [h2, h4]; exact h.2, h4⟩
  refine ⟨?_, ?_⟩
  · intro g name capacity calloc_res mmap_res realloc_ok c h
    unfold hive_cell_create at h
    by_cases hc : capacity = 0
    · simp [hc] at h
    · simp only [hc, if_false] at h
      unfold hive_cell_create_at at h
      cases calloc_res with
      | none => simp at h
      | some block =>
        cases mmap_res with
        | none => simp at h
        | some ptr =>
          simp only [Option.some.injEq] at h
          subst h
          simp
  · intro c hc
    refine ⟨key c hc, fun size => key c hc size 16, ?_, ?_⟩
    · exact ⟨{ c with used := 0 }, rfl, Nat.zero_le _, rfl⟩
    · unfold hive_cell_reset
      by_cases hu : c.used = 0
      · exact ⟨c, by simp [hu], hc, rfl⟩
      · cases DEBUG <;> simp [hu]

theorem used_le_capacity_invariant_witness :
    (hive_cell_fresh.used = 0 ∧ hive_cell_fresh.used ≤ hive_cell_fresh.capacity) ∧
    ((∀ size align, ∃ c', (hive_cell_align_alloc true (some hive_cell_fresh) size align).2 = some c' ∧
        c'.used ≤ c'.capacity ∧ c'.capacity = hive_cell_fresh.capacity) ∧
      (∀ size, ∃ c', (hive_cell_alloc true (some hive_cell_fresh) size).2 = some c' ∧
        c'.used ≤ c'.capacity ∧ c'.capacity = hive_cell_fresh.capacity) ∧
      (∃ c', hive_cell_soft_reset (some hive_cell_fresh) = some c' ∧
        c'.used ≤ c'.capacity ∧ c'.capacity = hive_cell_fresh.capacity) ∧
      (∃ c', (hive_cell_reset true (some hive_cell_fresh)).1 = some c' ∧
        c'.used ≤ c'.capacity ∧ c'.capacity = hive_cell_fresh.capacity)) :=
  ⟨(used_le_capacity_invariant false).1 hive_globals_running none 4096 (some 0x1000)
      (some HIVE_ADDR_HINT) true hive_cell_fresh (by decide),
    (used_le_capacity_invariant true).2 hive_cell_fresh (by decide)⟩

/-- C6, evaluated on the code: a successful call can decrease `used`; with `used = 32`,
`size = 2^64 - 32` and `align = 32` on a 4096-byte cell the call returns `base + 32` and `used`
drops from 32 to 0. -/
theorem align_alloc_used_decreases :
    ∃ c', hive_cell_align_alloc true (some { hive_cell_fresh with used := 32 }) (2 ^ 64 - 32) 32 =
        (some (hive_cell_fresh.base + 32), some c') ∧
      c'.used = 0 ∧ c'.used < 32 := by
  refine ⟨{ hive_cell_fresh with used := 0, total_allocs := 1, largest_alloc := 2 ^ 64 - 32 }, ?_, ?_⟩
  · decide
  · decide

theorem align_alloc_start_of_used_zero (align : Nat) (h : align < 2 ^ 64) :
    size_sub (size_add 0 (if align < 16 then 16 else align)) 1
      &&& size_not (size_sub (if align < 16 then 16 else align) 1) = 0 := by
  have ha : (if align < 16 then 16 else align) < 2 ^ 64 := by
    split
    · norm_num
    · exact h
  have e : size_add 0 (if align < 16 then 16 else align) = (if align < 16 then 16 else align) := by
    unfold size_add SIZE_MOD
    rw [Nat.zero_add, Nat.mod_eq_of_lt ha]
  rw [e]
  apply and_size_not_self
  unfold size_sub SIZE_MOD
  exact Nat.mod_lt _ (by norm_num)

/-- C9: after `hive_cell_soft_reset`, `used` is 0 and `base`, `capacity` and `name` are
unchanged; every later successful allocation, of any size and alignment, returns `base` (offset
0), and an allocation of a size between 1 and the capacity does succeed. -/
theorem soft_reset_then_alloc (DEBUG : Bool) (c : hive_cell) (size align : Nat)
    (halign : align < 2 ^ 64) :
    ∃ c', hive_cell_soft_reset (some c) = some c' ∧
      c'.used = 0 ∧ c'.base = c.base ∧ c'.capacity = c.capacity ∧ c'.name = c.name ∧
      (∀ p, (hive_cell_align_alloc DEBUG (some c') size align).1 = some p → p = c.base) ∧
      (0 < size → size ≤ c.capacity →
        (hive_cell_align_alloc DEBUG (some c') size align).1 = some c.base) := by
  refine ⟨{ c with used := 0 }, rfl, rfl, rfl, rfl, rfl, ?_, ?_⟩
  · intro p hp
    by_cases h : size = 0 ∨ ({ c with used := 0 } : hive_cell).capacity <
        size_add (size_sub (size_add ({ c with used := 0 } : hive_cell).used
        (if align < 16 then 16 else align)) 1
        &&& size_not (size_sub (if align < 16 then 16 else align) 1)) size
    · rw [align_alloc_fail DEBUG _ size align h] at hp
      simp at hp
    · rw [not_or, Nat.not_lt] at h
      obtain ⟨c', h1, _⟩ := align_alloc_ok DEBUG _ size align h.1 h.2
      rw [h1] at hp
      simp only [Option.some.injEq] at hp
      rw [← hp, align_alloc_start_of_used_zero align halign]
      rfl
  · intro hs hle
    have hfit : size_add (size_sub (size_add ({ c with used := 0 } : hive_cell).used
        (if align < 16 then 16 else align)) 1
        &&& size_not (size_sub (if align < 16 then 16 else align) 1)) size
        ≤ ({ c with used := 0 } : hive_cell).capacity := by
      rw [align_alloc_start_of_used_zero align halign]
      unfold size_add
      exact le_trans (Nat.mod_le _ _) (by simpa using hle)
    obtain ⟨c', h1, _⟩ := align_alloc_ok DEBUG _ size align (Nat.pos_iff_ne_zero.mp hs) hfit
    rw [h1, align_alloc_start_of_used_zero align halign]
    rfl

theorem soft_reset_then_alloc_witness :
    ∃ c', hive_cell_soft_reset (some { hive_cell_fresh with used := 32 }) = some c' ∧
      c'.used = 0 ∧ c'.base = hive_cell_fresh.base ∧ c'.capacity = hive_cell_fresh.capacity ∧
      c'.name = hive_cell_fresh.name ∧
      (∀ p, (hive_cell_align_alloc false (some c') 10 24).1 = some p → p = hive_cell_fresh.base) ∧
      (0 < 10 → 10 ≤ hive_cell_fresh.capacity →
        (hive_cell_align_alloc false (some c') 10 24).1 = some hive_cell_fresh.base) :=
  soft_reset_then_alloc false { hive_cell_fresh with used := 32 } 10 24 (by norm_num)

/-- C10: `hive_cell_reset` on a cell with `used > 0` issues exactly one call,
`madvise(base, used, MADV_DONTNEED)`, and sets `used` to 0 with `base`, `capacity` and `name`
unchanged; on a cell with `used = 0` it issues no call and leaves the cell as it is. -/
theorem hard_reset_decommits_used_range (DEBUG : Bool) (c : hive_cell) :
    (0 < c.used → ∃ c', hive_cell_reset DEBUG (some c) =
        (some c', [hive_event.madvise c.base c.used madv.MADV_DONTNEED]) ∧
      c'.used = 0 ∧ c'.base = c.base ∧ c'.capacity = c.capacity ∧ c'.name = c.name) ∧
    (c.used = 0 → hive_cell_reset DEBUG (some c) = (some c, [])) := by
  constructor
  · intro h
    have hu : c.used ≠ 0 := Nat.pos_iff_ne_zero.mp h
    unfold hive_cell_reset
    cases DEBUG <;> simp [hu]
  · intro h
    unfold hive_cell_reset
    simp [h]

theorem hard_reset_decommits_used_range_witness :
    (0 < ({ hive_cell_fresh with used := 4096 } : hive_cell).used ∧
      ∃ c', hive_cell_reset true (some { hive_cell_fresh with used := 4096 }) =
        (some c', [hive_event.madvise HIVE_ADDR_HINT 4096 madv.MADV_DONTNEED]) ∧
      c'.used = 0 ∧ c'.base = HIVE_ADDR_HINT ∧ c'.capacity = 4096 ∧ c'.name = "hive_cell") ∧
    (hive_cell_fresh.used = 0 ∧ hive_cell_reset true (some hive_cell_fresh) = (some hive_cell_fresh, [])) :=
  ⟨⟨by decide, (hard_reset_decommits_used_range true { hive_cell_fresh with used := 4096 }).1
      (by decide)⟩,
    ⟨rfl, (hard_reset_decommits_used_range true hive_cell_fresh).2 rfl⟩⟩

theorem size_sub_add_one (u a : Nat) (ha : 0 < a) :
    size_sub (size_add u a) 1 = (u + a - 1) % 2 ^ 64 := by
  unfold size_sub size_add SIZE_MOD
  norm_num
  omega

theorem size_sub_one {a : Nat} (ha : 0 < a) (h : a < 2 ^ 64) : size_sub a 1 = a - 1 := by
  unfold size_sub SIZE_MOD
  norm_num
  omega

theorem and_size_not_pow_two_sub_one (x k : Nat) (hx : x < 2 ^ 64) (hk : k < 64) :
    x &&& size_not (2 ^ k - 1) = x / 2 ^ k * 2 ^ k := by
  have hlt : 2 ^ k - 1 < 2 ^ 64 := by
    have : 2 ^ k < 2 ^ 64 := Nat.pow_lt_pow_right (by norm_num) hk
    omega
  apply Nat.eq_of_testBit_eq
  intro i
  rw [size_not_eq hlt, Nat.testBit_and, Nat.testBit_two_pow_sub_succ hlt,
    Nat.testBit_two_pow_sub_one, Nat.mul_comm, Nat.testBit_mul_pow_two,
    ← Nat.shiftRight_eq_div_pow, Nat.testBit_shiftRight]
  by_cases hik : i < k
  · simp [hik, Nat.not_le.mpr hik]
  · have hki : k ≤ i := Nat.le_of_not_lt hik
    have e : k + (i - k) = i := by omega
    simp only [hik, decide_False, Bool.not_false, Bool.and_true, ge_iff_le, hki, decide_True,
      Bool.true_and, e]
    by_cases hi : i < 64
    · simp [hi]
    · have : x.testBit i = false := by
        apply Nat.testBit_lt_two_pow
        exact lt_of_lt_of_le hx (Nat.pow_le_pow_right (by norm_num) (Nat.le_of_not_lt hi))
      simp [this]

theorem clamp_eq_max (align : Nat) : (if align < 16 then 16 else align) = max align 16 := by
  split <;> omega

theorem align_alloc_start_pow_two (u a k : Nat) (hk : k < 64) (ha : a = 2 ^ k) :
    size_sub (size_add u a) 1 &&& size_not (size_sub a 1) = (u + a - 1) % 2 ^ 64 / a * a := by
  have hpos : 0 < a := by rw [ha]; exact Nat.pow_pos (by norm_num)
  have hlt : a < 2 ^ 64 := by rw [ha]; exact Nat.pow_lt_pow_right (by norm_num) hk
  rw [size_sub_add_one u a hpos, size_sub_one hpos hlt, ha]
  exact and_size_not_pow_two_sub_one _ k (Nat.mod_lt _ (by norm_num)) hk

theorem round_up_least (u a m : Nat) (ha : 0 < a) (hm : a ∣ m) (hu : u ≤ m) :
    (u + a - 1) / a * a ≤ m := by
  obtain ⟨q, rfl⟩ := hm
  have : (u + a - 1) / a ≤ q := by
    rw [Nat.div_le_iff_le_mul_add_pred ha]
    have := Nat.mul_comm a q
    omega
  calc (u + a - 1) / a * a ≤ q * a := Nat.mul_le_mul_right a this
    _ = a * q := Nat.mul_comm q a

theorem le_round_up (u a : Nat) (ha : 0 < a) : u ≤ (u + a - 1) / a * a := by
  have h1 := Nat.div_add_mod (u + a - 1) a
  have h2 := Nat.mod_lt (u + a - 1) ha
  have h3 := Nat.mul_comm a ((u + a - 1) / a)
  omega

/-- C3 (amended): when the clamped alignment `max(align, 16)` is a power of two, the offset
from `base` of every pointer `hive_cell_align_alloc` returns is a multiple of it; if in addition
`used + max(align, 16) - 1` does not wrap, the offset is the smallest such multiple that is at
least the value of `used` before the call. -/
theorem align_alloc_offset_aligned (DEBUG : Bool) (c : hive_cell) (size align k p : Nat)
    (hk : k < 64) (ha : max align 16 = 2 ^ k)
    (hp : (hive_cell_align_alloc DEBUG (some c) size align).1 = some p) :
    ∃ off, p = c.base + off ∧ max align 16 ∣ off ∧
      (c.used + max align 16 - 1 < 2 ^ 64 →
        c.used ≤ off ∧ ∀ m, max align 16 ∣ m → c.used ≤ m → off ≤ m) := by
  have hpos : 0 < max align 16 := by omega
  by_cases h : size = 0 ∨ c.capacity < size_add (size_sub (size_add c.used
      (if align < 16 then 16 else align)) 1
      &&& size_not (size_sub (if align < 16 then 16 else align) 1)) size
  · rw [align_alloc_fail DEBUG c size align h] at hp
    simp at hp
  · rw [not_or, Nat.not_lt] at h
    obtain ⟨c', h1, _⟩ := align_alloc_ok DEBUG c size align h.1 h.2
    rw [h1] at hp
    simp only [Option.some.injEq] at hp
    rw [clamp_eq_max, align_alloc_start_pow_two c.used (max align 16) k hk ha] at hp
    refine ⟨_, hp.symm, Nat.dvd_mul_left _ _, ?_⟩
    intro hw
    rw [Nat.mod_eq_of_lt hw]
    exact ⟨le_round_up _ _ hpos, fun m hm hu => round_up_least _ _ m hpos hm hu⟩

theorem align_alloc_offset_aligned_witness :
    ∃ off, hive_cell_fresh.base + 64 = ({ hive_cell_fresh with used := 40 } : hive_cell).base + off ∧
      max 64 16 ∣ off ∧
      (({ hive_cell_fresh with used := 40 } : hive_cell).used + max 64 16 - 1 < 2 ^ 64 →
        ({ hive_cell_fresh with used := 40 } : hive_cell).used ≤ off ∧
          ∀ m, max 64 16 ∣ m → ({ hive_cell_fresh with used := 40 } : hive_cell).used ≤ m → off ≤ m) :=
  align_alloc_offset_aligned true { hive_cell_fresh with used := 40 } 8 64 6
    (hive_cell_fresh.base + 64) (by norm_num) (by norm_num) (by decide)

/-- C3, as stated, fails: with `align = 24` and `used = 16` the call succeeds and returns offset
32, which is not a multiple of 24, while 24 is a multiple of 24 that is at least 16. -/
theorem align_alloc_offset_not_multiple :
    (hive_cell_align_alloc false (some { hive_cell_fresh with used := 16 }) 16 24).1 =
        some (hive_cell_fresh.base + 32) ∧
      ¬ (max 24 16 ∣ 32) ∧ max 24 16 ∣ 24 ∧ 16 ≤ 24 ∧ 24 < 32 := by
  decide


/-- One smearing step `y |= y >> s`: when the `w` bits of `y` from bit `L` downwards are set and
no bit above `L` is, the same holds of the result for `w + s` bits. -/
theorem smear_step (L w s y : Nat) (hs : s ≤ w)
    (hhi : ∀ i, L < i → y.testBit i = false)
    (hlo : ∀ i, i ≤ L → L < i + w → y.testBit i = true) :
    (∀ i, L < i → (y ||| (y >>> s)).testBit i = false) ∧
    (∀ i, i ≤ L → L < i + (w + s) → (y ||| (y >>> s)).testBit i = true) := by
  constructor
  · intro i hi
    rw [Nat.testBit_or, Nat.testBit_shiftRight, hhi i hi, hhi (s + i) (by omega)]
    rfl
  · intro i hi hlt
    rw [Nat.testBit_or, Nat.testBit_shiftRight]
    by_cases h : L < i + w
    · rw [hlo i hi h]
      rfl
    · rw [hlo (s + i) (by omega) (by omega)]
      simp

theorem testBit_top (x L : Nat) (h1 : 2 ^ L ≤ x) (h2 : x < 2 ^ (L + 1)) : x.testBit L = true := by
  rw [Nat.testBit_to_div_mod]
  have : x / 2 ^ L = 1 := by
    apply Nat.div_eq_of_lt_le
    · simpa using h1
    · rw [pow_succ] at h2
      omega
  simp [this]

theorem smear_eq (x L : Nat) (hL : L < 64) (h1 : 2 ^ L ≤ x) (h2 : x < 2 ^ (L + 1)) :
    let v := x ||| (x >>> 1)
    let v := v ||| (v >>> 2)
    let v := v ||| (v >>> 4)
    let v := v ||| (v >>> 8)
    let v := v ||| (v >>> 16)
    let v := v ||| (v >>> 32)
    v = 2 ^ (L + 1) - 1 := by
  intro v1 v2 v3 v4 v5 v6
  have h0 : (∀ i, L < i → x.testBit i = false) ∧ (∀ i, i ≤ L → L < i + 1 → x.testBit i = true) := by
    constructor
    · intro i hi
      apply Nat.testBit_lt_two_pow
      exact lt_of_lt_of_le h2 (Nat.pow_le_pow_right (by norm_num) hi)
    · intro i hi hlt
      have : i = L := by omega
      rw [this]
      exact testBit_top x L h1 h2
  have s1 := smear_step L 1 1 x (by norm_num) h0.1 h0.2
  have s2 := smear_step L 2 2 v1 (by norm_num) s1.1 s1.2
  have s3 := smear_step L 4 4 v2 (by norm_num) s2.1 s2.2
  have s4 := smear_step L 8 8 v3 (by norm_num) s3.1 s3.2
  have s5 := smear_step L 16 16 v4 (by norm_num) s4.1 s4.2
  have s6 := smear_step L 32 32 v5 (by norm_num) s5.1 s5.2
  apply Nat.eq_of_testBit_eq
  intro i
  rw [Nat.testBit_two_pow_sub_one]
  by_cases hi : i < L + 1
  · rw [s6.2 i (by omega) (by omega)]
    simp [hi]
  · rw [s6.1 i (by omega)]
    simp [hi]

theorem hive_nxtpow2_eq (v L : Nat) (hL : L < 64) (h1 : 2 ^ L < v) (h2 : v ≤ 2 ^ (L + 1)) :
    hive_nxtpow2 v = 2 ^ (L + 1) % 2 ^ 64 := by
  have hv0 : v ≠ 0 := by omega
  have hpos : 0 < 2 ^ (L + 1) := Nat.pow_pos (by norm_num)
  have hle : 2 ^ (L + 1) ≤ 2 ^ 64 := Nat.pow_le_pow_right (by norm_num) (by omega)
  have hv : v - 1 < 2 ^ 64 := by omega
  have hsub : size_sub v 1 = v - 1 := by
    unfold size_sub SIZE_MOD
    norm_num at hle hv ⊢
    omega
  unfold hive_nxtpow2
  simp only [hv0, if_false]
  rw [hsub]
  have := smear_eq (v - 1) L hL (by omega) (by omega)
  simp only at this
  rw [this]
  unfold size_add SIZE_MOD
  rw [Nat.sub_add_cancel hpos]

theorem hive_nxtpow2_spec (v : Nat) (h1 : 0 < v) (h2 : v ≤ 2 ^ 63) :
    ∃ j, j ≤ 63 ∧ hive_nxtpow2 v = 2 ^ j ∧ v ≤ 2 ^ j ∧ ∀ i, v ≤ 2 ^ i → j ≤ i := by
  by_cases hv : v = 1
  · subst hv
    exact ⟨0, by norm_num, by decide, by norm_num, fun i _ => Nat.zero_le i⟩
  · have hx : v - 1 ≠ 0 := by omega
    have hlo := Nat.pow_log_le_self 2 hx
    have hhi := Nat.lt_pow_succ_log_self (by norm_num : 1 < 2) (v - 1)
    have hL : Nat.log 2 (v - 1) < 63 := by
      by_contra hcon
      have : 2 ^ 63 ≤ 2 ^ Nat.log 2 (v - 1) :=
        Nat.pow_le_pow_right (by norm_num) (Nat.le_of_not_lt hcon)
      omega
    have hlt : 2 ^ (Nat.log 2 (v - 1) + 1) < 2 ^ 64 :=
      Nat.pow_lt_pow_right (by norm_num) (by omega)
    refine ⟨Nat.log 2 (v - 1) + 1, by omega, ?_, by omega, ?_⟩
    · rw [hive_nxtpow2_eq v (Nat.log 2 (v - 1)) (by omega) (by omega) (by omega),
        Nat.mod_eq_of_lt hlt]
    · intro i hi
      by_contra hcon
      have : 2 ^ i ≤ 2 ^ Nat.log 2 (v - 1) :=
        Nat.pow_le_pow_right (by norm_num) (by omega)
      omega

theorem hive_align_up_pow_two (j k : Nat) (hj : j ≤ 63) (hk : k < 64) :
    hive_align_up (2 ^ j) (2 ^ k) = 2 ^ max j k := by
  have hkpos : 0 < 2 ^ k := Nat.pow_pos (by norm_num)
  have hjpos : 0 < 2 ^ j := Nat.pow_pos (by norm_num)
  have hj63 : 2 ^ j ≤ 2 ^ 63 := Nat.pow_le_pow_right (by norm_num) hj
  have hk63 : 2 ^ k ≤ 2 ^ 63 := Nat.pow_le_pow_right (by norm_num) (by omega)
  have hw : 2 ^ j + 2 ^ k - 1 < 2 ^ 64 := by
    norm_num at hj63 hk63 ⊢
    omega
  unfold hive_align_up
  rw [align_alloc_start_pow_two (2 ^ j) (2 ^ k) k hk rfl, Nat.mod_eq_of_lt hw]
  apply le_antisymm
  · apply round_up_least _ _ _ hkpos
    · exact Nat.pow_dvd_pow 2 (le_max_right j k)
    · exact Nat.pow_le_pow_right (by norm_num) (le_max_left j k)
  · have hge := le_round_up (2 ^ j) (2 ^ k) hkpos
    have hq : 0 < (2 ^ j + 2 ^ k - 1) / 2 ^ k := by
      apply Nat.div_pos _ hkpos
      omega
    have hge2 : 2 ^ k ≤ (2 ^ j + 2 ^ k - 1) / 2 ^ k * 2 ^ k := Nat.le_mul_of_pos_left _ hq
    rcases le_total j k with h | h
    · rw [max_eq_right h]
      exact hge2
    · rw [max_eq_left h]
      exact hge

theorem huge_eq : HIVE_PAGE_SIZE_HUGE = 2 ^ 21 := by decide

theorem create_rounding_spec (ps k capacity : Nat) (hps : ps = 2 ^ k) (hk : k < 64)
    (h1 : 0 < capacity) (h2 : capacity ≤ 2 ^ 63) :
    ∃ j a, j ≤ 63 ∧ a ≤ j ∧
      hive_cell_create_rounding ps capacity = (2 ^ a, 2 ^ j) ∧ capacity ≤ 2 ^ j ∧
      (2 ^ a = HIVE_PAGE_SIZE_HUGE ∨ 2 ^ a = ps) := by
  obtain ⟨j, hj, hn, hle, _⟩ := hive_nxtpow2_spec capacity h1 h2
  unfold hive_cell_create_rounding
  simp only [hn]
  by_cases hh : 2 ^ j ≥ HIVE_PAGE_SIZE_HUGE
  · simp only [hh, if_true]
    have h21 : 21 ≤ j := by
      rw [huge_eq] at hh
      exact (Nat.pow_le_pow_iff_right (by norm_num)).mp hh
    refine ⟨j, 21, hj, h21, ?_, hle, Or.inl huge_eq.symm⟩
    rw [huge_eq, hive_align_up_pow_two j 21 hj (by norm_num), max_eq_left h21]
  · simp only [hh, if_false]
    refine ⟨max j k, k, by omega, le_max_right j k, ?_, ?_, Or.inr hps.symm⟩
    · rw [hps, hive_align_up_pow_two j k hj hk]
    · exact le_trans hle (Nat.pow_le_pow_right (by norm_num) (le_max_left j k))

/-! ## Theorems: cell creation -/

theorem hive_cell_create_zero (DEBUG : Bool) (g : hive_globals) (name : Option String)
    (calloc_res mmap_res : Option Nat) (realloc_ok : Bool) :
    hive_cell_create DEBUG g name 0 calloc_res mmap_res realloc_ok = (none, g, []) := by
  unfold hive_cell_create
  simp only [if_true]

theorem hive_cell_create_nonzero (DEBUG : Bool) (g : hive_globals) (name : Option String)
    (capacity : Nat) (calloc_res mmap_res : Option Nat) (realloc_ok : Bool) (h : capacity ≠ 0) :
    hive_cell_create DEBUG g name capacity calloc_res mmap_res realloc_ok =
      hive_cell_create_at DEBUG g (hive_cell_create_name name)
        (hive_cell_create_rounding g.g_sys_pagesize capacity).1
        (hive_cell_create_rounding g.g_sys_pagesize capacity).2 calloc_res mmap_res realloc_ok := by
  unfold hive_cell_create
  simp only [h, if_false]

theorem hive_cell_create_at_some (DEBUG : Bool) (g : hive_globals) (name : String)
    (A X block ptr : Nat) (realloc_ok : Bool) :
    hive_cell_create_at DEBUG g name A X (some block) (some ptr) realloc_ok =
      (some { addr := block, base := ptr, capacity := X, used := 0, total_allocs := 0,
              largest_alloc := 0, peak := 0, page_size := if DEBUG then A else 0, name := name },
        { g with
          g_hive_cursor := size_add g.g_hive_cursor X
          g_hive_registry := register_cell g.g_hive_registry
            (some { addr := block, base := ptr, capacity := X, used := 0, total_allocs := 0,
                    largest_alloc := 0, peak := 0, page_size := if DEBUG then A else 0,
                    name := name }) realloc_ok },
        [hive_event.cursor_fetch_add g.g_hive_cursor X, hive_event.mmap g.g_hive_cursor X] ++
          if A = HIVE_PAGE_SIZE_HUGE then [hive_event.madvise ptr X madv.MADV_HUGEPAGE]
          else []) := by
  unfold hive_cell_create_at
  by_cases hh : A = HIVE_PAGE_SIZE_HUGE
  · simp [hh]
  · simp [hh]

theorem hive_cell_create_at_none (DEBUG : Bool) (g : hive_globals) (name : String)
    (A X : Nat) (calloc_res mmap_res : Option Nat) (realloc_ok : Bool)
    (h : calloc_res = none ∨ mmap_res = none) :
    (hive_cell_create_at DEBUG g name A X calloc_res mmap_res realloc_ok).1 = none ∧
      (hive_cell_create_at DEBUG g name A X calloc_res mmap_res realloc_ok).2.1.g_hive_registry =
        g.g_hive_registry := by
  unfold hive_cell_create_at
  cases calloc_res with
  | none => simp
  | some block =>
    cases mmap_res with
    | none => simp
    | some ptr => simp at h

theorem hive_cell_create_at_cursor (DEBUG : Bool) (g : hive_globals) (name : String)
    (A X : Nat) (calloc_res mmap_res : Option Nat) (realloc_ok : Bool) :
    cursor_hints (hive_cell_create_at DEBUG g name A X calloc_res mmap_res realloc_ok).2.2 =
        [(g.g_hive_cursor, X)] ∧
      (hive_cell_create_at DEBUG g name A X calloc_res mmap_res realloc_ok).2.1.g_sys_pagesize =
        g.g_sys_pagesize ∧
      (hive_cell_create_at DEBUG g name A X calloc_res mmap_res realloc_ok).2.1.g_hive_cursor =
        size_add g.g_hive_cursor X := by
  unfold hive_cell_create_at
  cases calloc_res with
  | none => simp [cursor_hints]
  | some block =>
    cases mmap_res with
    | none => simp [cursor_hints]
    | some ptr =>
      by_cases hh : A = HIVE_PAGE_SIZE_HUGE
      · simp [cursor_hints, hh]
      · simp [cursor_hints, hh]

/-- C4 (amended): for a request with `0 < capacity <= 2^63` and a page size that is a power of
two, `hive_cell_create` (when the control block and the mapping are obtained) returns a cell whose
capacity, the length it asked `mmap` for, is a power of two, is a multiple of the selected
alignment (the 2 MiB huge-page size or the page size) and is at least the requested capacity. -/
theorem create_capacity_rounded (DEBUG : Bool) (g : hive_globals) (name : Option String)
    (capacity block ptr k : Nat) (realloc_ok : Bool)
    (h1 : 0 < capacity) (h2 : capacity ≤ 2 ^ 63) (hk : k < 64) (hps : g.g_sys_pagesize = 2 ^ k) :
    ∃ c g' ev alignment,
      hive_cell_create DEBUG g name capacity (some block) (some ptr) realloc_ok = (some c, g', ev) ∧
      hive_event.mmap g.g_hive_cursor c.capacity ∈ ev ∧
      (∃ j, c.capacity = 2 ^ j) ∧
      (alignment = HIVE_PAGE_SIZE_HUGE ∨ alignment = g.g_sys_pagesize) ∧
      alignment = (hive_cell_create_rounding g.g_sys_pagesize capacity).1 ∧
      (DEBUG = true → c.page_size = alignment) ∧
      alignment ∣ c.capacity ∧
      capacity ≤ c.capacity := by
  obtain ⟨j, a, _, haj, hr, hle, hsel⟩ :=
    create_rounding_spec g.g_sys_pagesize k capacity hps hk h1 h2
  have e1 : (hive_cell_create_rounding g.g_sys_pagesize capacity).1 = 2 ^ a := by rw [hr]
  have e2 : (hive_cell_create_rounding g.g_sys_pagesize capacity).2 = 2 ^ j := by rw [hr]
  rw [hive_cell_create_nonzero DEBUG g name capacity _ _ realloc_ok (Nat.pos_iff_ne_zero.mp h1),
    e1, e2, hive_cell_create_at_some]
  refine ⟨_, _, _, 2 ^ a, rfl, ?_, ⟨j, rfl⟩, hsel, rfl, ?_, Nat.pow_dvd_pow 2 haj, hle⟩
  · simp
  · intro hd
    simp [hd]

theorem create_capacity_rounded_witness :
    ∃ c g' ev alignment,
      hive_cell_create true hive_globals_running (some "test") 1000 (some 0x1000)
        (some HIVE_ADDR_HINT) true = (some c, g', ev) ∧
      hive_event.mmap hive_globals_running.g_hive_cursor c.capacity ∈ ev ∧
      (∃ j, c.capacity = 2 ^ j) ∧
      (alignment = HIVE_PAGE_SIZE_HUGE ∨ alignment = hive_globals_running.g_sys_pagesize) ∧
      alignment = (hive_cell_create_rounding hive_globals_running.g_sys_pagesize 1000).1 ∧
      (true = true → c.page_size = alignment) ∧
      alignment ∣ c.capacity ∧
      1000 ≤ c.capacity :=
  create_capacity_rounded true hive_globals_running (some "test") 1000 0x1000 HIVE_ADDR_HINT 12 true
    (by norm_num) (by norm_num) (by norm_num) (by decide)

/-- C4, as stated, fails: for the request `capacity = 2^63 + 1` with 4096-byte pages
`hive_nxtpow2` wraps to 0, the selected alignment is the page size and the capacity computed is 0,
which is the amount the cursor advances by and the length `hive_cell_create` passes to `mmap`;
0 is below the requested capacity. -/
theorem create_capacity_wraps_to_zero :
    hive_nxtpow2 (2 ^ 63 + 1) = 0 ∧
    hive_cell_create_rounding hive_globals_running.g_sys_pagesize (2 ^ 63 + 1) = (4096, 0) ∧
    hive_cell_create false hive_globals_running none (2 ^ 63 + 1) (some 0x1000) none true =
      (none, hive_globals_running,
        [hive_event.cursor_fetch_add HIVE_ADDR_HINT 0, hive_event.mmap HIVE_ADDR_HINT 0,
          hive_event.free 0x1000]) ∧
    ¬ (2 ^ 63 + 1 ≤ 0) := by
  decide



/-! ## Theorems: the address-space cursor -/

theorem cursor_hints_append (a b : List hive_event) :
    cursor_hints (a ++ b) = cursor_hints a ++ cursor_hints b := by
  induction a with
  | nil => rfl
  | cons e t ih =>
    cases e <;> simp [cursor_hints, ih]

theorem hive_cell_create_hints (DEBUG : Bool) (g : hive_globals) (name : Option String)
    (capacity : Nat) (calloc_res mmap_res : Option Nat) (realloc_ok : Bool) :
    cursor_hints (hive_cell_create DEBUG g name capacity calloc_res mmap_res realloc_ok).2.2 =
        cursor_walk g.g_sys_pagesize g.g_hive_cursor [capacity] ∧
      (hive_cell_create DEBUG g name capacity calloc_res mmap_res realloc_ok).2.1.g_sys_pagesize =
        g.g_sys_pagesize ∧
      (hive_cell_create DEBUG g name capacity calloc_res mmap_res realloc_ok).2.1.g_hive_cursor =
        if capacity = 0 then g.g_hive_cursor
        else size_add g.g_hive_cursor (hive_cell_create_rounding g.g_sys_pagesize capacity).2 := by
  by_cases h : capacity = 0
  · subst h
    rw [hive_cell_create_zero]
    exact ⟨by simp only [cursor_hints, cursor_walk, if_true], by simp only,
      by simp only [if_true]⟩
  · have hw : cursor_walk g.g_sys_pagesize g.g_hive_cursor [capacity] =
        [(g.g_hive_cursor, (hive_cell_create_rounding g.g_sys_pagesize capacity).2)] := by
      simp only [cursor_walk, h, if_false]
    rw [hw, if_neg h, hive_cell_create_nonzero DEBUG g name capacity _ _ realloc_ok h]
    exact hive_cell_create_at_cursor DEBUG g _ _ _ calloc_res mmap_res realloc_ok

theorem hive_run_hints (DEBUG : Bool) (ops : List hive_op) :
    ∀ s : hive_run_state, cursor_hints (hive_run DEBUG s ops).events =
      cursor_hints s.events ++
        cursor_walk s.g.g_sys_pagesize s.g.g_hive_cursor (create_capacities ops) := by
  induction ops with
  | nil =>
    intro s
    simp [hive_run, create_capacities, cursor_walk]
  | cons op rest ih =>
    intro s
    cases op with
    | create name capacity calloc_res mmap_res realloc_ok =>
      obtain ⟨h1, h2, h3⟩ :=
        hive_cell_create_hints DEBUG s.g name capacity calloc_res mmap_res realloc_ok
      rw [hive_run, ih]
      simp only [hive_step, cursor_hints_append, h1, h2, h3, create_capacities, cursor_walk]
      by_cases h : capacity = 0
      · simp [h]
      · simp [h]
    | destroy cell =>
      rw [hive_run, ih]
      cases cell with
      | none => simp [hive_step, hive_cell_destroy, create_capacities]
      | some c =>
        by_cases hb : c.base = 0
        · simp [hive_step, hive_cell_destroy, create_capacities, cursor_hints_append, hb,
            cursor_hints]
        · simp [hive_step, hive_cell_destroy, create_capacities, cursor_hints_append, hb,
            cursor_hints]

theorem cursor_walk_spec (ps k : Nat) (hk : k < 64) (hps : ps = 2 ^ k) (caps : List Nat) :
    ∀ cur, (∀ c ∈ caps, c ≤ 2 ^ 63) →
      cur + ((cursor_walk ps cur caps).map Prod.snd).sum < 2 ^ 64 →
      (∀ h ∈ (cursor_walk ps cur caps).head?, h.1 = cur) ∧
      (cursor_walk ps cur caps).Chain' (fun a b => b.1 = a.1 + a.2) ∧
      (cursor_walk ps cur caps).Pairwise (fun a b => a.1 + a.2 ≤ b.1) ∧
      ((cursor_walk ps cur caps).map Prod.fst).Nodup ∧
      (∀ b ∈ cursor_walk ps cur caps, cur ≤ b.1) := by
  induction caps with
  | nil =>
    intro cur _ _
    simp [cursor_walk]
  | cons cap rest ih =>
    intro cur hcap hsum
    have hrest : ∀ c ∈ rest, c ≤ 2 ^ 63 := fun c hc => hcap c (List.mem_cons_of_mem _ hc)
    by_cases h0 : cap = 0
    · simp only [cursor_walk, h0, if_true] at hsum ⊢
      exact ih cur hrest hsum
    · simp only [cursor_walk, h0, if_false] at hsum ⊢
      obtain ⟨j, a, _, _, hr, _, _⟩ := create_rounding_spec ps k cap hps hk
        (Nat.pos_iff_ne_zero.mpr h0) (hcap cap (List.mem_cons_self _ _))
      have hrc : 0 < (hive_cell_create_rounding ps cap).2 := by
        rw [hr]
        exact Nat.pow_pos (by norm_num)
      simp only [List.map_cons, List.sum_cons] at hsum
      have hnw : size_add cur (hive_cell_create_rounding ps cap).2 =
          cur + (hive_cell_create_rounding ps cap).2 := by
        unfold size_add SIZE_MOD
        exact Nat.mod_eq_of_lt (by omega)
      rw [hnw] at hsum ⊢
      obtain ⟨i1, i2, i3, i4, i5⟩ := ih (cur + (hive_cell_create_rounding ps cap).2) hrest
        (by omega)
      refine ⟨by simp, ?_, ?_, ?_, ?_⟩
      · rw [List.chain'_cons']
        exact ⟨fun y hy => i1 y hy, i2⟩
      · rw [List.pairwise_cons]
        exact ⟨fun b hb => i5 b hb, i3⟩
      · rw [List.map_cons, List.nodup_cons]
        refine ⟨?_, i4⟩
        intro hmem
        obtain ⟨b, hb, hbe⟩ := List.mem_map.mp hmem
        have := i5 b hb
        omega
      · intro b hb
        rcases List.mem_cons.mp hb with rfl | hb
        · exact le_refl _
        · have := i5 b hb
          omega

/-! ## Theorems: the registry -/

theorem cons_last_take_perm (t : List Nat) (d : Nat) (ht : t ≠ []) :
    ((t.getD (t.length - 1) d :: t).take t.length).Perm t := by
  have hlen : 0 < t.length := List.length_pos.mpr ht
  have e1 : t.length = (t.length - 1) + 1 := by omega
  have e2 : t.getD (t.length - 1) d = t.getLast ht := by
    rw [List.getD_eq_getElem t d (by omega), List.getLast_eq_getElem]
  rw [e2]
  conv_lhs => rw [e1, List.take_succ_cons, ← List.dropLast_eq_take]
  have e3 := List.dropLast_append_getLast ht
  exact (List.perm_append_singleton (t.getLast ht) t.dropLast).symm.trans (by rw [e3])

theorem take_set_perm_erase (l : List Nat) (a d : Nat) (h : a ∈ l) :
    ((l.set (l.indexOf a) (l.getD (l.length - 1) d)).take (l.length - 1)).Perm (l.erase a) := by
  induction l with
  | nil => simp at h
  | cons x t ih =>
    by_cases hx : x = a
    · subst hx
      rw [List.indexOf_cons_self, List.erase_cons_head]
      simp only [List.set_cons_zero, List.length_cons, Nat.add_sub_cancel]
      by_cases ht : t = []
      · subst ht
        simp
      · have hlen : 0 < t.length := List.length_pos.mpr ht
        have e : (x :: t).getD t.length d = t.getD (t.length - 1) d := by
          conv_lhs => rw [show t.length = (t.length - 1) + 1 by omega, List.getD_cons_succ]
        rw [e]
        exact cons_last_take_perm t d ht
    · have hat : a ∈ t := by
        rcases List.mem_cons.mp h with h | h
        · exact absurd h.symm hx
        · exact h
      have ht : t ≠ [] := List.ne_nil_of_mem hat
      have hlen : 0 < t.length := List.length_pos.mpr ht
      have e : (x :: t).getD t.length d = t.getD (t.length - 1) d := by
        conv_lhs => rw [show t.length = (t.length - 1) + 1 by omega, List.getD_cons_succ]
      rw [List.indexOf_cons_ne t hx, List.erase_cons_tail (by simpa using hx)]
      simp only [List.length_cons, Nat.add_sub_cancel, Nat.succ_eq_add_one, List.set_cons_succ]
      rw [e]
      conv_lhs => rw [show t.length = (t.length - 1) + 1 by omega, List.take_succ_cons]
      exact List.Perm.cons x (ih hat)

theorem unregister_cell_mem (reg : hive_registry) (c : hive_cell) (h : c.addr ∈ reg.cells) :
    (unregister_cell reg (some c)).cells.Perm (reg.cells.erase c.addr) ∧
      (unregister_cell reg (some c)).capacity = reg.capacity := by
  unfold unregister_cell
  have hi : reg.cells.indexOf c.addr < reg.cells.length := List.indexOf_lt_length.mpr h
  simp only [hi, if_true]
  exact ⟨take_set_perm_erase reg.cells c.addr 0 h, trivial⟩

theorem unregister_cell_not_mem (reg : hive_registry) (c : hive_cell) (h : c.addr ∉ reg.cells) :
    unregister_cell reg (some c) = reg := by
  unfold unregister_cell
  have hi : ¬ reg.cells.indexOf c.addr < reg.cells.length := fun hlt =>
    h (List.indexOf_lt_length.mp hlt)
  simp only [hi, if_false]

theorem register_cell_append (reg : hive_registry) (c : hive_cell)
    (hlen : reg.cells.length < 2 ^ 63) :
    (register_cell reg (some c) true).cells = reg.cells ++ [c.addr] := by
  unfold register_cell
  by_cases hfull : reg.cells.length ≥ reg.capacity
  · simp only [hfull, if_true]
    by_cases h0 : reg.capacity = 0
    · simp [h0]
    · have hgrow : ¬ size_mul reg.capacity 2 ≤ reg.capacity := by
        unfold size_mul SIZE_MOD
        norm_num at hlen ⊢
        omega
      simp [h0, hgrow]
  · simp only [hfull, if_false]

theorem hive_step_create_proj (DEBUG : Bool) (s : hive_run_state) (name : Option String)
    (capacity : Nat) (calloc_res mmap_res : Option Nat) (realloc_ok : Bool)
    (r : Option hive_cell × hive_globals × List hive_event)
    (hr : hive_cell_create DEBUG s.g name capacity calloc_res mmap_res realloc_ok = r) :
    (hive_step DEBUG s (hive_op.create name capacity calloc_res mmap_res realloc_ok)).g = r.2.1 ∧
      (hive_step DEBUG s (hive_op.create name capacity calloc_res mmap_res realloc_ok)).live =
        match r.1 with
        | some c => s.live ++ [c.addr]
        | none => s.live := by
  subst hr
  exact ⟨rfl, rfl⟩

theorem hive_step_create_some (DEBUG : Bool) (s : hive_run_state) (name : Option String)
    (capacity : Nat) (calloc_res mmap_res : Option Nat) (realloc_ok : Bool)
    (c : hive_cell) (g' : hive_globals) (ev : List hive_event)
    (hr : hive_cell_create DEBUG s.g name capacity calloc_res mmap_res realloc_ok =
      (some c, g', ev)) :
    (hive_step DEBUG s (hive_op.create name capacity calloc_res mmap_res realloc_ok)).g = g' ∧
      (hive_step DEBUG s (hive_op.create name capacity calloc_res mmap_res realloc_ok)).live =
        s.live ++ [c.addr] :=
  hive_step_create_proj DEBUG s name capacity calloc_res mmap_res realloc_ok _ hr

theorem hive_step_create_registry (DEBUG : Bool) (s : hive_run_state) (name : Option String)
    (capacity : Nat) (calloc_res mmap_res : Option Nat) (realloc_ok : Bool) :
    ((hive_step DEBUG s (hive_op.create name capacity calloc_res mmap_res realloc_ok)).live =
        s.live ∧
      (hive_step DEBUG s
        (hive_op.create name capacity calloc_res mmap_res realloc_ok)).g.g_hive_registry =
        s.g.g_hive_registry) ∨
    ∃ c : hive_cell, calloc_res = some c.addr ∧
      (hive_step DEBUG s (hive_op.create name capacity calloc_res mmap_res realloc_ok)).live =
        s.live ++ [c.addr] ∧
      (hive_step DEBUG s
        (hive_op.create name capacity calloc_res mmap_res realloc_ok)).g.g_hive_registry =
        register_cell s.g.g_hive_registry (some c) realloc_ok := by
  by_cases h0 : capacity = 0
  · left
    subst h0
    obtain ⟨e1, e2⟩ := hive_step_create_proj DEBUG s name 0 calloc_res mmap_res realloc_ok _
      (hive_cell_create_zero DEBUG s.g name calloc_res mmap_res realloc_ok)
    rw [e1, e2]
    exact ⟨rfl, rfl⟩
  · by_cases hn : calloc_res = none ∨ mmap_res = none
    · left
      obtain ⟨e1, e2⟩ := hive_step_create_proj DEBUG s name capacity calloc_res mmap_res
        realloc_ok _ (hive_cell_create_nonzero DEBUG s.g name capacity calloc_res mmap_res
          realloc_ok h0)
      obtain ⟨n1, n2⟩ := hive_cell_create_at_none DEBUG s.g (hive_cell_create_name name)
        (hive_cell_create_rounding s.g.g_sys_pagesize capacity).1
        (hive_cell_create_rounding s.g.g_sys_pagesize capacity).2 calloc_res mmap_res
        realloc_ok hn
      rw [e1, e2, n1, n2]
      exact ⟨rfl, rfl⟩
    · right
      rw [not_or] at hn
      obtain ⟨block, hb⟩ := Option.ne_none_iff_exists'.mp hn.1
      obtain ⟨ptr, hp⟩ := Option.ne_none_iff_exists'.mp hn.2
      subst hb hp
      obtain ⟨e1, e2⟩ := hive_step_create_some DEBUG s name capacity (some block) (some ptr)
        realloc_ok _ _ _ ((hive_cell_create_nonzero DEBUG s.g name capacity (some block)
          (some ptr) realloc_ok h0).trans
            (hive_cell_create_at_some DEBUG s.g _ _ _ block ptr realloc_ok))
      exact ⟨⟨block, ptr, (hive_cell_create_rounding s.g.g_sys_pagesize capacity).2, 0, 0, 0, 0,
        if DEBUG then (hive_cell_create_rounding s.g.g_sys_pagesize capacity).1 else 0,
        hive_cell_create_name name⟩, rfl, e2, by rw [e1]⟩

theorem hive_step_destroy_registry (DEBUG : Bool) (s : hive_run_state) (c : hive_cell) :
    (hive_step DEBUG s (hive_op.destroy (some c))).g.g_hive_registry =
        unregister_cell s.g.g_hive_registry (some c) ∧
      (hive_step DEBUG s (hive_op.destroy (some c))).live = s.live.erase c.addr :=
  ⟨rfl, rfl⟩

theorem hive_run_registry (DEBUG : Bool) (ops : List hive_op) :
    ∀ (s : hive_run_state) (n : Nat), s.g.g_hive_registry.cells.Perm s.live → s.live.Nodup →
      s.live.length ≤ n → n + ops.length ≤ 2 ^ 63 → hive_ops_ok DEBUG s ops = true →
      (hive_run DEBUG s ops).g.g_hive_registry.cells.Perm (hive_run DEBUG s ops).live ∧
        (hive_run DEBUG s ops).live.Nodup := by
  induction ops with
  | nil =>
    intro s n hp hn _ _ _
    exact ⟨hp, hn⟩
  | cons op rest ih =>
    intro s n hp hn hle hlen hok
    rw [hive_ops_ok, Bool.and_eq_true] at hok
    rw [List.length_cons] at hlen
    rw [hive_run]
    cases op with
    | create name capacity calloc_res mmap_res realloc_ok =>
      have hop := hok.1
      simp only [hive_op_ok, Bool.and_eq_true] at hop
      rcases hive_step_create_registry DEBUG s name capacity calloc_res mmap_res realloc_ok with
        ⟨e1, e2⟩ | ⟨c, hc, e1, e2⟩
      · exact ih _ (n + 1) (by rw [e1, e2]; exact hp) (by rw [e1]; exact hn)
          (by rw [e1]; omega) (by omega) hok.2
      · have hfresh : c.addr ∉ s.live := by
          have h2 := hop.2
          rw [hc] at h2
          simpa using h2
        have hro : realloc_ok = true := hop.1
        have hcells : s.g.g_hive_registry.cells.length < 2 ^ 63 := by
          rw [hp.length_eq]
          omega
        have e3 := register_cell_append s.g.g_hive_registry c hcells
        refine ih _ (n + 1) ?_ ?_ ?_ (by omega) hok.2
        · rw [e1, e2, hro, e3]
          exact hp.append_right _
        · rw [e1]
          exact List.Nodup.append hn (List.nodup_singleton _)
            (by simpa using hfresh)
        · rw [e1, List.length_append, List.length_singleton]
          omega
    | destroy cell =>
      have hop := hok.1
      cases cell with
      | none => simp [hive_op_ok] at hop
      | some c =>
        have hmem : c.addr ∈ s.live := by simpa [hive_op_ok] using hop
        obtain ⟨e1, e2⟩ := hive_step_destroy_registry DEBUG s c
        obtain ⟨u1, _⟩ := unregister_cell_mem s.g.g_hive_registry c (hp.mem_iff.mpr hmem)
        refine ih _ (n + 1) ?_ ?_ ?_ (by omega) hok.2
        · rw [e1, e2]
          exact u1.trans (hp.erase c.addr)
        · rw [e2]
          exact hn.erase c.addr
        · rw [e2, List.length_erase_of_mem hmem]
          omega

/-- C8 (amended): starting from an empty registry, after any run of creations and of
destructions of cells created and not yet destroyed, in which every registry growth succeeds
(`reaper_realloc` does not fail; at most `2^63` calls) and `reaper_calloc` never returns the block
of a live cell, the registry holds exactly the cells created and not yet destroyed, each once.
`unregister_cell` removes the given cell and keeps every other entry, and changes nothing when
the cell is not present. -/
theorem registry_tracks_live_cells (DEBUG : Bool) (g : hive_globals) (ops : List hive_op)
    (hempty : g.g_hive_registry.cells = []) (hlen : ops.length ≤ 2 ^ 63)
    (hok : hive_ops_ok DEBUG (hive_run_start g) ops = true) :
    (hive_run DEBUG (hive_run_start g) ops).g.g_hive_registry.cells.Perm
        (hive_run DEBUG (hive_run_start g) ops).live ∧
      (hive_run DEBUG (hive_run_start g) ops).g.g_hive_registry.cells.Nodup ∧
      (∀ (reg : hive_registry) (c : hive_cell), c.addr ∈ reg.cells →
        (unregister_cell reg (some c)).cells.Perm (reg.cells.erase c.addr)) ∧
      (∀ (reg : hive_registry) (c : hive_cell), c.addr ∉ reg.cells →
        unregister_cell reg (some c) = reg) := by
  have h := hive_run_registry DEBUG ops (hive_run_start g) 0
    (by rw [show (hive_run_start g).g = g from rfl, hempty]; exact List.Perm.refl _)
    List.nodup_nil (Nat.le_refl _) (by omega) hok
  exact ⟨h.1, h.1.nodup_iff.mpr h.2, fun reg c hc => (unregister_cell_mem reg c hc).1,
    fun reg c hc => unregister_cell_not_mem reg c hc⟩

theorem registry_tracks_live_cells_witness :
    (hive_run true (hive_run_start hive_globals_running)
        [hive_op.create (some "a") 4096 (some 0x1000) (some 0x700000000000) true,
          hive_op.create (some "b") 4096 (some 0x2000) (some 0x700000001000) true,
          hive_op.create (some "c") 4096 (some 0x3000) (some 0x700000002000) true,
          hive_op.destroy (some { hive_cell_fresh with addr := 0x2000 })]).live =
      [0x1000, 0x3000] ∧
    ((hive_run true (hive_run_start hive_globals_running)
        [hive_op.create (some "a") 4096 (some 0x1000) (some 0x700000000000) true,
          hive_op.create (some "b") 4096 (some 0x2000) (some 0x700000001000) true,
          hive_op.create (some "c") 4096 (some 0x3000) (some 0x700000002000) true,
          hive_op.destroy (some { hive_cell_fresh with addr := 0x2000 })]).g.g_hive_registry.cells.Perm
        (hive_run true (hive_run_start hive_globals_running)
        [hive_op.create (some "a") 4096 (some 0x1000) (some 0x700000000000) true,
          hive_op.create (some "b") 4096 (some 0x2000) (some 0x700000001000) true,
          hive_op.create (some "c") 4096 (some 0x3000) (some 0x700000002000) true,
          hive_op.destroy (some { hive_cell_fresh with addr := 0x2000 })]).live ∧
      (hive_run true (hive_run_start hive_globals_running)
        [hive_op.create (some "a") 4096 (some 0x1000) (some 0x700000000000) true,
          hive_op.create (some "b") 4096 (some 0x2000) (some 0x700000001000) true,
          hive_op.create (some "c") 4096 (some 0x3000) (some 0x700000002000) true,
          hive_op.destroy (some { hive_cell_fresh with addr := 0x2000 })]).g.g_hive_registry.cells.Nodup ∧
      (∀ (reg : hive_registry) (c : hive_cell), c.addr ∈ reg.cells →
        (unregister_cell reg (some c)).cells.Perm (reg.cells.erase c.addr)) ∧
      (∀ (reg : hive_registry) (c : hive_cell), c.addr ∉ reg.cells →
        unregister_cell reg (some c) = reg)) :=
  ⟨by decide,
    registry_tracks_live_cells true hive_globals_running
      [hive_op.create (some "a") 4096 (some 0x1000) (some 0x700000000000) true,
        hive_op.create (some "b") 4096 (some 0x2000) (some 0x700000001000) true,
        hive_op.create (some "c") 4096 (some 0x3000) (some 0x700000002000) true,
        hive_op.destroy (some { hive_cell_fresh with addr := 0x2000 })]
      (by decide) (by simp) (by decide)⟩

/-- C8, as stated, fails: when `reaper_realloc` fails on the first growth of the registry,
`hive_cell_create` still returns the cell, which is then live, and the registry stays empty. -/
theorem registry_misses_cell_on_growth_failure :
    (hive_cell_create false hive_globals_running none 4096 (some 0x1000) (some HIVE_ADDR_HINT)
      false).1 = some hive_cell_fresh ∧
    (hive_run false (hive_run_start hive_globals_running)
      [hive_op.create none 4096 (some 0x1000) (some HIVE_ADDR_HINT) false]).live = [0x1000] ∧
    (hive_run false (hive_run_start hive_globals_running)
      [hive_op.create none 4096 (some 0x1000) (some HIVE_ADDR_HINT) false]).g.g_hive_registry.cells
        = [] := by
  decide


/-! ## Theorems: the lifecycle -/

theorem hive_init_off (g : hive_globals) (ps : Nat)
    (h : g.g_hive_state = hive_state.HIVE_STATE_OFF) :
    hive_init g ps = (true,
      if g.g_hive_cursor = 0 then
        { g with g_hive_state := hive_state.HIVE_STATE_RUNNING, g_sys_pagesize := ps,
                 g_hive_cursor := HIVE_ADDR_HINT }
      else { g with g_hive_state := hive_state.HIVE_STATE_RUNNING, g_sys_pagesize := ps },
      [hive_event.reaper_init]) := by
  unfold hive_init
  simp only [h, ne_eq, not_true_eq_false, if_false]

theorem hive_init_not_off (g : hive_globals) (ps : Nat)
    (h : g.g_hive_state ≠ hive_state.HIVE_STATE_OFF) : hive_init g ps = (false, g, []) := by
  unfold hive_init
  simp only [h, ne_eq, not_false_eq_true, if_true]

theorem hive_init_state (g : hive_globals) (ps : Nat) :
    (hive_init g ps).2.1.g_hive_state =
      if g.g_hive_state = hive_state.HIVE_STATE_OFF then hive_state.HIVE_STATE_RUNNING
      else g.g_hive_state := by
  by_cases h : g.g_hive_state = hive_state.HIVE_STATE_OFF
  · rw [hive_init_off g ps h, if_pos h]
    split <;> rfl
  · rw [hive_init_not_off g ps h, if_neg h]

theorem hive_shutdown_state (g : hive_globals) :
    (hive_shutdown g).1.g_hive_state =
      if g.g_hive_state = hive_state.HIVE_STATE_RUNNING then hive_state.HIVE_STATE_SHUTTING_DOWN
      else g.g_hive_state := by
  unfold hive_shutdown
  by_cases h : g.g_hive_state = hive_state.HIVE_STATE_RUNNING
  · simp [h]
  · simp [h]

/-- C11: `hive_init` returns true exactly when the lifecycle state was OFF; a `hive_init` that
follows a `hive_init` returns false, issues no call and leaves the globals (state, cursor, cached
page size, registry) as they are; a `hive_shutdown` that follows a `hive_shutdown` leaves the
globals as they are and issues no call, so `reaper_shutdown` is not called again. -/
theorem init_shutdown_once (g : hive_globals) (ps ps' : Nat) :
    ((hive_init g ps).1 = true ↔ g.g_hive_state = hive_state.HIVE_STATE_OFF) ∧
    hive_init (hive_init g ps).2.1 ps' = (false, (hive_init g ps).2.1, []) ∧
    hive_shutdown (hive_shutdown g).1 = ((hive_shutdown g).1, []) := by
  refine ⟨?_, ?_, ?_⟩
  · by_cases h : g.g_hive_state = hive_state.HIVE_STATE_OFF
    · rw [hive_init_off g ps h]
      simp [h]
    · rw [hive_init_not_off g ps h]
      simp [h]
  · apply hive_init_not_off
    rw [hive_init_state]
    split
    · decide
    · assumption
  · have hs : (hive_shutdown g).1.g_hive_state ≠ hive_state.HIVE_STATE_RUNNING := by
      rw [hive_shutdown_state]
      split
      · decide
      · assumption
    generalize hive_shutdown g = r at hs ⊢
    unfold hive_shutdown
    rw [if_pos hs]

theorem hive_lifecycle_step_state (g : hive_globals) (call : hive_lifecycle_call) :
    hive_state_value g.g_hive_state ≤ hive_state_value (hive_lifecycle_step g call).g_hive_state := by
  cases call with
  | init ps =>
    rw [hive_lifecycle_step, hive_init_state]
    split
    · rename_i h
      rw [h]
      decide
    · exact Nat.le_refl _
  | shutdown =>
    rw [hive_lifecycle_step, hive_shutdown_state]
    split
    · rename_i h
      rw [h]
      decide
    · exact Nat.le_refl _

theorem hive_lifecycle_run_append (g : hive_globals) (a b : List hive_lifecycle_call) :
    hive_lifecycle_run g (a ++ b) = hive_lifecycle_run (hive_lifecycle_run g a) b := by
  induction a generalizing g with
  | nil => rfl
  | cons call rest ih => exact ih (hive_lifecycle_step g call)

theorem hive_lifecycle_run_state (calls : List hive_lifecycle_call) :
    ∀ g : hive_globals,
      hive_state_value g.g_hive_state ≤ hive_state_value (hive_lifecycle_run g calls).g_hive_state := by
  induction calls with
  | nil =>
    intro g
    exact Nat.le_refl _
  | cons call rest ih =>
    intro g
    exact Nat.le_trans (hive_lifecycle_step_state g call) (ih (hive_lifecycle_step g call))

/-- C12: along every sequence of `hive_init` and `hive_shutdown` calls the lifecycle state only
moves upwards in the order OFF < RUNNING < SHUTTING_DOWN: the state after a longer prefix of the
sequence is never below the state after a shorter one; a state that has left OFF does not return
to OFF, a state that is SHUTTING_DOWN stays SHUTTING_DOWN, and there `hive_init` returns false. -/
theorem lifecycle_monotonic (g : hive_globals) (before after : List hive_lifecycle_call)
    (ps : Nat) :
    hive_state_value (hive_lifecycle_run g before).g_hive_state ≤
        hive_state_value (hive_lifecycle_run g (before ++ after)).g_hive_state ∧
      ((hive_lifecycle_run g before).g_hive_state ≠ hive_state.HIVE_STATE_OFF →
        (hive_lifecycle_run g (before ++ after)).g_hive_state ≠ hive_state.HIVE_STATE_OFF) ∧
      ((hive_lifecycle_run g before).g_hive_state = hive_state.HIVE_STATE_SHUTTING_DOWN →
        (hive_lifecycle_run g (before ++ after)).g_hive_state =
            hive_state.HIVE_STATE_SHUTTING_DOWN ∧
          (hive_init (hive_lifecycle_run g (before ++ after)) ps).1 = false) := by
  have hmono := hive_lifecycle_run_state after (hive_lifecycle_run g before)
  rw [← hive_lifecycle_run_append] at hmono
  generalize (hive_lifecycle_run g before).g_hive_state = s1 at hmono ⊢
  have key : ∀ s2 : hive_state, hive_state_value s1 ≤ hive_state_value s2 →
      (s1 ≠ hive_state.HIVE_STATE_OFF → s2 ≠ hive_state.HIVE_STATE_OFF) ∧
      (s1 = hive_state.HIVE_STATE_SHUTTING_DOWN → s2 = hive_state.HIVE_STATE_SHUTTING_DOWN) := by
    intro s2
    cases s1 <;> cases s2 <;> simp [hive_state_value]
  obtain ⟨k1, k2⟩ := key _ hmono
  refine ⟨hmono, k1, fun h => ⟨k2 h, ?_⟩⟩
  rw [hive_init_not_off _ ps (by rw [k2 h]; decide)]

theorem lifecycle_monotonic_witness :
    hive_state_value (hive_lifecycle_run hive_globals_zero
        [hive_lifecycle_call.init 4096, hive_lifecycle_call.shutdown]).g_hive_state ≤
        hive_state_value (hive_lifecycle_run hive_globals_zero
          ([hive_lifecycle_call.init 4096, hive_lifecycle_call.shutdown] ++
            [hive_lifecycle_call.init 4096, hive_lifecycle_call.shutdown])).g_hive_state ∧
      ((hive_lifecycle_run hive_globals_zero
          [hive_lifecycle_call.init 4096, hive_lifecycle_call.shutdown]).g_hive_state ≠
            hive_state.HIVE_STATE_OFF ∧
        (hive_lifecycle_run hive_globals_zero
          ([hive_lifecycle_call.init 4096, hive_lifecycle_call.shutdown] ++
            [hive_lifecycle_call.init 4096, hive_lifecycle_call.shutdown])).g_hive_state ≠
            hive_state.HIVE_STATE_OFF) ∧
      ((hive_lifecycle_run hive_globals_zero
          [hive_lifecycle_call.init 4096, hive_lifecycle_call.shutdown]).g_hive_state =
            hive_state.HIVE_STATE_SHUTTING_DOWN ∧
        (hive_lifecycle_run hive_globals_zero
          ([hive_lifecycle_call.init 4096, hive_lifecycle_call.shutdown] ++
            [hive_lifecycle_call.init 4096, hive_lifecycle_call.shutdown])).g_hive_state =
            hive_state.HIVE_STATE_SHUTTING_DOWN ∧
        (hive_init (hive_lifecycle_run hive_globals_zero
          ([hive_lifecycle_call.init 4096, hive_lifecycle_call.shutdown] ++
            [hive_lifecycle_call.init 4096, hive_lifecycle_call.shutdown])) 4096).1 = false) :=
  have h := lifecycle_monotonic hive_globals_zero
    [hive_lifecycle_call.init 4096, hive_lifecycle_call.shutdown]
    [hive_lifecycle_call.init 4096, hive_lifecycle_call.shutdown] 4096
  ⟨h.1, ⟨by decide, h.2.1 (by decide)⟩, ⟨by decide, h.2.2 (by decide)⟩⟩

/-! ## Theorems: invalid arguments -/

/-- C13: `hive_cell_create` with capacity 0 returns `NULL`, issues no call and leaves the globals
(cursor, registry and all) unchanged; `hive_cell_align_alloc` with a null cell returns `NULL`, and
with size 0 returns `NULL` and leaves the cell (`used` and the debug counters) unchanged, for
every `align`. -/
theorem invalid_arguments_rejected (DEBUG : Bool) (g : hive_globals) (name : Option String)
    (calloc_res mmap_res : Option Nat) (realloc_ok : Bool) (c : hive_cell) (size align : Nat) :
    hive_cell_create DEBUG g name 0 calloc_res mmap_res realloc_ok = (none, g, []) ∧
    hive_cell_align_alloc DEBUG none size align = (none, none) ∧
    hive_cell_align_alloc DEBUG (some c) 0 align = (none, some c) :=
  ⟨hive_cell_create_zero DEBUG g name calloc_res mmap_res realloc_ok, rfl,
    align_alloc_fail DEBUG c 0 align (Or.inl rfl)⟩


/-! ## Theorems: the rounding of a requested capacity -/

theorem create_rounding_exact (ps k capacity : Nat) (hps : ps = 2 ^ k) (hk : k ≤ 21)
    (h1 : 0 < capacity) (h2 : capacity ≤ 2 ^ 63) :
    ∃ j, j ≤ 63 ∧ hive_nxtpow2 capacity = 2 ^ j ∧ capacity ≤ 2 ^ j ∧
      (∀ i, capacity ≤ 2 ^ i → j ≤ i) ∧
      hive_cell_create_rounding ps capacity =
        (if 21 ≤ j then 2 ^ 21 else 2 ^ k, 2 ^ max j k) := by
  obtain ⟨j, hj, hn, hle, hmin⟩ := hive_nxtpow2_spec capacity h1 h2
  refine ⟨j, hj, hn, hle, hmin, ?_⟩
  unfold hive_cell_create_rounding
  simp only [hn]
  by_cases hh : 2 ^ j ≥ HIVE_PAGE_SIZE_HUGE
  · have h21 : 21 ≤ j := by
      rw [huge_eq] at hh
      exact (Nat.pow_le_pow_iff_right (by norm_num)).mp hh
    simp only [hh, if_true, h21]
    rw [huge_eq, hive_align_up_pow_two j 21 hj (by norm_num), max_eq_left h21,
      max_eq_left (le_trans hk h21)]
  · have h21 : ¬ 21 ≤ j := by
      intro hcon
      apply hh
      rw [huge_eq]
      exact Nat.pow_le_pow_right (by norm_num) hcon
    simp only [hh, if_false, h21]
    rw [hps, hive_align_up_pow_two j k hj (by omega)]

/-- C14: for a requested capacity `c` with `1 <= c <= 2^63` and a page size that is a power of
two not larger than 2 MiB, the capacity `hive_cell_create` computes (the capacity of the cell it
returns) is a power of two, is at least `c` and at least the page size, and is the smallest such
power of two; the selected alignment is 2 MiB exactly when that capacity is at least 2 MiB (and,
for a page size below 2 MiB, exactly when `hive_nxtpow2 c` is at least 2 MiB). With `c = 1000`
and 4096-byte pages `hive_nxtpow2` gives 1024 and the capacity is 4096. -/
theorem create_capacity_exact (DEBUG : Bool) (g : hive_globals) (name : Option String)
    (capacity block ptr k : Nat) (realloc_ok : Bool)
    (h1 : 1 ≤ capacity) (h2 : capacity ≤ 2 ^ 63) (hk : k ≤ 21) (hps : g.g_sys_pagesize = 2 ^ k) :
    (∃ c g' ev alignment,
      hive_cell_create DEBUG g name capacity (some block) (some ptr) realloc_ok = (some c, g', ev) ∧
      (alignment, c.capacity) = hive_cell_create_rounding g.g_sys_pagesize capacity ∧
      (∃ j, c.capacity = 2 ^ j) ∧
      capacity ≤ c.capacity ∧ g.g_sys_pagesize ≤ c.capacity ∧
      (∀ i, capacity ≤ 2 ^ i → g.g_sys_pagesize ≤ 2 ^ i → c.capacity ≤ 2 ^ i) ∧
      (alignment = HIVE_PAGE_SIZE_HUGE ↔ HIVE_PAGE_SIZE_HUGE ≤ c.capacity) ∧
      (k < 21 → (alignment = HIVE_PAGE_SIZE_HUGE ↔
        HIVE_PAGE_SIZE_HUGE ≤ hive_nxtpow2 capacity))) ∧
    hive_nxtpow2 1000 = 1024 ∧ hive_cell_create_rounding 4096 1000 = (4096, 4096) := by
  refine ⟨?_, by decide, by decide⟩
  obtain ⟨j, _, hn, hle, hmin, hr⟩ :=
    create_rounding_exact g.g_sys_pagesize k capacity hps hk h1 h2
  have e1 : (hive_cell_create_rounding g.g_sys_pagesize capacity).1 =
      if 21 ≤ j then 2 ^ 21 else 2 ^ k := by rw [hr]
  have e2 : (hive_cell_create_rounding g.g_sys_pagesize capacity).2 = 2 ^ max j k := by rw [hr]
  rw [hive_cell_create_nonzero DEBUG g name capacity _ _ realloc_ok (by omega), e1, e2,
    hive_cell_create_at_some, hr]
  refine ⟨_, _, _, if 21 ≤ j then 2 ^ 21 else 2 ^ k, rfl, rfl, ⟨max j k, rfl⟩, ?_, ?_, ?_, ?_,
    ?_⟩
  · exact le_trans hle (Nat.pow_le_pow_right (by norm_num) (le_max_left j k))
  · rw [hps]
    exact Nat.pow_le_pow_right (by norm_num) (le_max_right j k)
  · intro i hi hpi
    rw [hps] at hpi
    have hki : k ≤ i := (Nat.pow_le_pow_iff_right (by norm_num)).mp hpi
    exact Nat.pow_le_pow_right (by norm_num) (max_le (hmin i hi) hki)
  · show (if 21 ≤ j then 2 ^ 21 else 2 ^ k) = HIVE_PAGE_SIZE_HUGE ↔
      HIVE_PAGE_SIZE_HUGE ≤ 2 ^ max j k
    rw [huge_eq, Nat.pow_le_pow_iff_right (by norm_num)]
    by_cases h21 : 21 ≤ j
    · simp only [h21, if_true, true_iff]
      exact le_trans h21 (le_max_left j k)
    · simp only [h21, if_false]
      rw [Nat.pow_right_injective (le_refl 2) |>.eq_iff]
      constructor
      · intro hkk
        rw [hkk]
        exact le_max_right j 21
      · intro hm
        rcases le_max_iff.mp hm with h | h
        · exact absurd h h21
        · omega
  · intro hk21
    rw [hn, huge_eq, Nat.pow_le_pow_iff_right (by norm_num)]
    by_cases h21 : 21 ≤ j
    · simp only [h21, if_true]
    · simp only [h21, if_false, iff_false]
      intro hcon
      have := Nat.pow_right_injective (le_refl 2) hcon
      omega

theorem create_capacity_exact_witness :
    (∃ c g' ev alignment,
      hive_cell_create true hive_globals_running (some "test") 1000 (some 0x1000)
        (some HIVE_ADDR_HINT) true = (some c, g', ev) ∧
      (alignment, c.capacity) =
        hive_cell_create_rounding hive_globals_running.g_sys_pagesize 1000 ∧
      (∃ j, c.capacity = 2 ^ j) ∧
      1000 ≤ c.capacity ∧ hive_globals_running.g_sys_pagesize ≤ c.capacity ∧
      (∀ i, 1000 ≤ 2 ^ i → hive_globals_running.g_sys_pagesize ≤ 2 ^ i → c.capacity ≤ 2 ^ i) ∧
      (alignment = HIVE_PAGE_SIZE_HUGE ↔ HIVE_PAGE_SIZE_HUGE ≤ c.capacity) ∧
      (12 < 21 → (alignment = HIVE_PAGE_SIZE_HUGE ↔
        HIVE_PAGE_SIZE_HUGE ≤ hive_nxtpow2 1000))) ∧
    hive_nxtpow2 1000 = 1024 ∧ hive_cell_create_rounding 4096 1000 = (4096, 4096) :=
  create_capacity_exact true hive_globals_running (some "test") 1000 0x1000 HIVE_ADDR_HINT 12 true
    (by norm_num) (by norm_num) (by norm_num) (by decide)


/-! ## Theorems: worked scenarios and the default alignment -/

theorem align_alloc_16_start (used : Nat) (h : used + 15 < 2 ^ 64) (hu : used % 16 = 0) :
    size_sub (size_add used (if 16 < 16 then 16 else 16)) 1
      &&& size_not (size_sub (if 16 < 16 then 16 else 16) 1) = used := by
  have e := align_alloc_start_pow_two used 16 4 (by norm_num) (by norm_num)
  rw [Nat.mod_eq_of_lt (by omega)] at e
  rw [if_neg (Nat.lt_irrefl 16), e]
  omega

theorem align_alloc_16_ok (DEBUG : Bool) (c : hive_cell) (size : Nat) (hs : 0 < size)
    (hu : c.used % 16 = 0) (hfit : c.used + size ≤ c.capacity) (hcap : c.capacity + 15 < 2 ^ 64) :
    ∃ c', hive_cell_align_alloc DEBUG (some c) size 16 = (some (c.base + c.used), some c') ∧
      c'.used = c.used + size ∧ c'.base = c.base ∧ c'.capacity = c.capacity := by
  have hst := align_alloc_16_start c.used (by omega) hu
  have hend : size_add c.used size = c.used + size := by
    unfold size_add SIZE_MOD
    exact Nat.mod_eq_of_lt (by omega)
  obtain ⟨c', h1, h2, h3, h4, _⟩ := align_alloc_ok DEBUG c size 16 (by omega)
    (by rw [hst, hend]; exact hfit)
  rw [hst] at h1 h2
  rw [hend] at h2
  exact ⟨c', h1, h2, h3, h4⟩

theorem align_alloc_16_full (DEBUG : Bool) (c : hive_cell) (size : Nat)
    (hu : c.used % 16 = 0) (hfit : c.capacity < c.used + size) (hw : c.used + size < 2 ^ 64) :
    hive_cell_align_alloc DEBUG (some c) size 16 = (none, some c) := by
  have hst := align_alloc_16_start c.used (by omega) hu
  have hend : size_add c.used size = c.used + size := by
    unfold size_add SIZE_MOD
    exact Nat.mod_eq_of_lt hw
  exact align_alloc_fail DEBUG c size 16 (Or.inr (by rw [hst, hend]; exact hfit))

/-- C15: on an empty cell of capacity 64, allocating 16 bytes with align 16 returns offset 0 and
leaves `used = 16`; allocating 16 more returns offset 16 and leaves `used = 32`; allocating 40 then
fails and leaves the cell, with `used = 32`, as it is; a soft reset then gives `used = 0` and a
following 10-byte allocation returns offset 0 again. -/
theorem scenario_capacity_64 (DEBUG : Bool) (c : hive_cell) (hused : c.used = 0)
    (hcap : c.capacity = 64) :
    ∃ c1 c2 c3,
      hive_cell_align_alloc DEBUG (some c) 16 16 = (some (c.base + 0), some c1) ∧ c1.used = 16 ∧
      hive_cell_align_alloc DEBUG (some c1) 16 16 = (some (c.base + 16), some c2) ∧
      c2.used = 32 ∧
      hive_cell_align_alloc DEBUG (some c2) 40 16 = (none, some c2) ∧
      hive_cell_soft_reset (some c2) = some c3 ∧ c3.used = 0 ∧
      (hive_cell_align_alloc DEBUG (some c3) 10 16).1 = some (c.base + 0) ∧
      (hive_cell_alloc DEBUG (some c3) 10).1 = some (c.base + 0) := by
  obtain ⟨c1, a1, u1, b1, k1⟩ := align_alloc_16_ok DEBUG c 16 (by norm_num)
    (by rw [hused]) (by rw [hused, hcap]; norm_num) (by rw [hcap]; norm_num)
  rw [hused] at a1 u1
  rw [Nat.zero_add] at u1
  obtain ⟨c2, a2, u2, b2, k2⟩ := align_alloc_16_ok DEBUG c1 16 (by norm_num)
    (by rw [u1]) (by rw [u1, k1, hcap]; norm_num) (by rw [k1, hcap]; norm_num)
  rw [u1, b1] at a2
  rw [u1] at u2
  have a3 := align_alloc_16_full DEBUG c2 40 (by rw [u2])
    (by rw [u2, k2, k1, hcap]; norm_num) (by rw [u2]; norm_num)
  obtain ⟨c4, a4, _⟩ := align_alloc_16_ok DEBUG { c2 with used := 0 } 10 (by norm_num)
    rfl (by show 0 + 10 ≤ c2.capacity; rw [k2, k1, hcap]; norm_num)
    (by show c2.capacity + 15 < 2 ^ 64; rw [k2, k1, hcap]; norm_num)
  have a4' : (hive_cell_align_alloc DEBUG (some { c2 with used := 0 }) 10 16).1 =
      some (c.base + 0) := by
    rw [a4]
    show some (c2.base + 0) = some (c.base + 0)
    rw [b2, b1]
  exact ⟨c1, c2, { c2 with used := 0 }, a1, u1, a2, u2, a3, rfl, rfl, a4', a4'⟩

theorem scenario_capacity_64_witness :
    ∃ c1 c2 c3,
      hive_cell_align_alloc true (some { hive_cell_fresh with capacity := 64 }) 16 16 =
        (some (({ hive_cell_fresh with capacity := 64 } : hive_cell).base + 0), some c1) ∧
      c1.used = 16 ∧
      hive_cell_align_alloc true (some c1) 16 16 =
        (some (({ hive_cell_fresh with capacity := 64 } : hive_cell).base + 16), some c2) ∧
      c2.used = 32 ∧
      hive_cell_align_alloc true (some c2) 40 16 = (none, some c2) ∧
      hive_cell_soft_reset (some c2) = some c3 ∧ c3.used = 0 ∧
      (hive_cell_align_alloc true (some c3) 10 16).1 =
        some (({ hive_cell_fresh with capacity := 64 } : hive_cell).base + 0) ∧
      (hive_cell_alloc true (some c3) 10).1 =
        some (({ hive_cell_fresh with capacity := 64 } : hive_cell).base + 0) :=
  scenario_capacity_64 true { hive_cell_fresh with capacity := 64 } rfl rfl

/-- C16: `hive_cell_alloc(cell, size)` returns the same result and leaves the same cell as
`hive_cell_align_alloc(cell, size, 16)`, for every cell (null or not) and size; and
`hive_cell_align_alloc` with any `align` from 0 to 16 gives that same result and cell. -/
theorem alloc_is_align_alloc_16 (DEBUG : Bool) (cell : Option hive_cell) (size align : Nat)
    (h : align ≤ 16) :
    hive_cell_alloc DEBUG cell size = hive_cell_align_alloc DEBUG cell size 16 ∧
      hive_cell_align_alloc DEBUG cell size align = hive_cell_alloc DEBUG cell size := by
  refine ⟨rfl, ?_⟩
  have hclamp : (if align < 16 then 16 else align) = 16 := by
    split <;> omega
  have h16 : (if 16 < 16 then 16 else 16) = 16 := if_neg (Nat.lt_irrefl 16)
  unfold hive_cell_alloc hive_cell_align_alloc
  cases cell with
  | none => rfl
  | some c =>
    simp only [hclamp, h16]

theorem alloc_is_align_alloc_16_witness :
    hive_cell_alloc true (some hive_cell_fresh) 24 =
        hive_cell_align_alloc true (some hive_cell_fresh) 24 16 ∧
      hive_cell_align_alloc true (some hive_cell_fresh) 24 3 =
        hive_cell_alloc true (some hive_cell_fresh) 24 :=
  alloc_is_align_alloc_16 true (some hive_cell_fresh) 24 3 (by norm_num)


/-! ## Theorems: debug counters -/

theorem hive_cell_fresh_debug_created :
    (hive_cell_create true hive_globals_running none 4096 (some 0x1000) (some HIVE_ADDR_HINT)
      true).1 = some hive_cell_fresh_debug := by
  decide

/-- C17 (amended): in a debug build `hive_cell_reset` on a cell with `used > 0` leaves
`total_allocs = 0`; on a cell with `used = 0` it returns early and the cell, `total_allocs`
included, stays as it is. -/
theorem hard_reset_total_allocs (c : hive_cell) :
    ∃ c', (hive_cell_reset true (some c)).1 = some c' ∧
      (0 < c.used → c'.total_allocs = 0) ∧ (c.used = 0 → c' = c) := by
  unfold hive_cell_reset
  by_cases h : c.used = 0
  · exact ⟨c, by simp [h], fun hpos => absurd h (Nat.pos_iff_ne_zero.mp hpos), fun _ => rfl⟩
  · exact ⟨{ c with used := 0, total_allocs := 0 }, by simp [h], fun _ => rfl,
      fun h0 => absurd h0 h⟩

theorem hard_reset_total_allocs_witness :
    ∃ c', (hive_cell_reset true
        (some { hive_cell_fresh_debug with used := 16, total_allocs := 1 })).1 = some c' ∧
      (0 < ({ hive_cell_fresh_debug with used := 16, total_allocs := 1 } : hive_cell).used →
        c'.total_allocs = 0) ∧
      (({ hive_cell_fresh_debug with used := 16, total_allocs := 1 } : hive_cell).used = 0 →
        c' = { hive_cell_fresh_debug with used := 16, total_allocs := 1 }) :=
  hard_reset_total_allocs { hive_cell_fresh_debug with used := 16, total_allocs := 1 }

/-- C17, as stated, fails: in a debug build, after one allocation and a soft reset the fresh cell
has `used = 0` and `total_allocs = 1`; `hive_cell_reset` then returns early and `total_allocs`
is still 1. -/
theorem hard_reset_keeps_total_allocs :
    hive_cell_run true (some hive_cell_fresh_debug)
        [hive_cell_op.alloc 16, hive_cell_op.soft_reset] =
      some { hive_cell_fresh_debug with used := 0, total_allocs := 1, largest_alloc := 16, peak := 16 } ∧
    hive_cell_reset true
        (some { hive_cell_fresh_debug with used := 0, total_allocs := 1, largest_alloc := 16,
                                            peak := 16 }) =
      (some { hive_cell_fresh_debug with used := 0, total_allocs := 1, largest_alloc := 16, peak := 16 },
        []) ∧
    ({ hive_cell_fresh_debug with used := 0, total_allocs := 1, largest_alloc := 16,
                                            peak := 16 } : hive_cell).total_allocs ≠ 0 := by
  decide

theorem align_alloc_debug_result (c : hive_cell) (size align : Nat) :
    hive_cell_align_alloc true (some c) size align = (none, some c) ∨
    ∃ p c', hive_cell_align_alloc true (some c) size align = (some p, some c') ∧
      c'.used ≤ c.capacity ∧ c'.capacity = c.capacity ∧
      c'.total_allocs = size_add c.total_allocs 1 ∧
      c'.largest_alloc = max c.largest_alloc size ∧
      c'.peak = max c.peak c'.used := by
  by_cases h : size = 0 ∨ c.capacity < size_add (size_sub (size_add c.used
      (if align < 16 then 16 else align)) 1
      &&& size_not (size_sub (if align < 16 then 16 else align) 1)) size
  · exact Or.inl (align_alloc_fail true c size align h)
  · right
    rw [not_or, Nat.not_lt] at h
    generalize hE : size_add (size_sub (size_add c.used
      (if align < 16 then 16 else align)) 1
      &&& size_not (size_sub (if align < 16 then 16 else align) 1)) size = E at h
    generalize hS : (size_sub (size_add c.used
      (if align < 16 then 16 else align)) 1
      &&& size_not (size_sub (if align < 16 then 16 else align) 1)) = S at hE
    refine ⟨c.base + S, { c with
      used := E
      total_allocs := size_add c.total_allocs 1
      largest_alloc := if size > c.largest_alloc then size else c.largest_alloc
      peak := if E > c.peak then E else c.peak }, ?_, h.2, rfl, rfl, ?_, ?_⟩
    · unfold hive_cell_align_alloc
      simp only [h.1, if_false, hS, hE, Nat.not_lt.mpr h.2, if_true]
    · show (if size > c.largest_alloc then size else c.largest_alloc) = max c.largest_alloc size
      rw [Nat.max_def]
      split <;> split <;> omega
    · show (if E > c.peak then E else c.peak) = max c.peak E
      rw [Nat.max_def]
      split <;> split <;> omega

theorem hive_cell_create_fields (DEBUG : Bool) (g : hive_globals) (name : Option String)
    (capacity : Nat) (calloc_res mmap_res : Option Nat) (realloc_ok : Bool) (c : hive_cell)
    (h : (hive_cell_create DEBUG g name capacity calloc_res mmap_res realloc_ok).1 = some c) :
    c.used = 0 ∧ c.total_allocs = 0 ∧ c.largest_alloc = 0 ∧ c.peak = 0 := by
  by_cases h0 : capacity = 0
  · subst h0
    rw [hive_cell_create_zero] at h
    simp at h
  · rw [hive_cell_create_nonzero DEBUG g name capacity _ _ realloc_ok h0] at h
    by_cases hn : calloc_res = none ∨ mmap_res = none
    · rw [(hive_cell_create_at_none DEBUG g _ _ _ calloc_res mmap_res realloc_ok hn).1] at h
      simp at h
    · rw [not_or] at hn
      obtain ⟨block, hb⟩ := Option.ne_none_iff_exists'.mp hn.1
      obtain ⟨ptr, hp⟩ := Option.ne_none_iff_exists'.mp hn.2
      subst hb hp
      rw [hive_cell_create_at_some] at h
      simp only [Option.some.injEq] at h
      subst h
      exact ⟨rfl, rfl, rfl, rfl⟩

theorem hive_cell_step_peak (c : hive_cell) (op : hive_cell_op)
    (h1 : c.used ≤ c.peak) (h2 : c.peak ≤ c.capacity) :
    ∃ c', hive_cell_step true (some c) op = some c' ∧ c'.used ≤ c'.peak ∧
      c'.peak ≤ c'.capacity := by
  have halloc : ∀ size align, ∃ c', (hive_cell_align_alloc true (some c) size align).2 = some c' ∧
      c'.used ≤ c'.peak ∧ c'.peak ≤ c'.capacity := by
    intro size align
    rcases align_alloc_debug_result c size align with hf | ⟨p, c', hr, hu, hc, _, _, hp⟩
    · exact ⟨c, by rw [hf], h1, h2⟩
    · refine ⟨c', by rw [hr], ?_, ?_⟩
      · rw [hp]
        exact le_max_right _ _
      · rw [hp, hc]
        exact max_le h2 hu
  cases op with
  | align_alloc size align => exact halloc size align
  | alloc size => exact halloc size 16
  | soft_reset => exact ⟨{ c with used := 0 }, rfl, Nat.zero_le _, h2⟩
  | reset =>
    by_cases h : c.used = 0
    · exact ⟨c, by simp [hive_cell_step, hive_cell_reset, h], h1, h2⟩
    · exact ⟨{ c with used := 0, total_allocs := 0 },
        by simp [hive_cell_step, hive_cell_reset, h], Nat.zero_le _, h2⟩

theorem hive_cell_run_peak (ops : List hive_cell_op) :
    ∀ c : hive_cell, c.used ≤ c.peak → c.peak ≤ c.capacity →
      ∃ c', hive_cell_run true (some c) ops = some c' ∧ c'.used ≤ c'.peak ∧
        c'.peak ≤ c'.capacity := by
  induction ops with
  | nil =>
    intro c h1 h2
    exact ⟨c, rfl, h1, h2⟩
  | cons op rest ih =>
    intro c h1 h2
    obtain ⟨c1, e1, i1, i2⟩ := hive_cell_step_peak c op h1 h2
    rw [hive_cell_run, e1]
    exact ih c1 i1 i2

/-- C18: in a debug build a successful allocation of size `s` increments `total_allocs` by one
(as a `size_t`, so by exactly 1 unless the counter is at `2^64 - 1`), sets `largest_alloc` to
`max(largest_alloc, s)` and `peak` to `max(peak, used)` for the new `used`; a failed allocation
leaves the cell as it is; and every cell reached from `hive_cell_create` by allocations and
resets has `used <= peak <= capacity`. -/
theorem debug_counters_tracked (c : hive_cell) (size align : Nat) :
    (∀ p c', hive_cell_align_alloc true (some c) size align = (some p, some c') →
      c'.total_allocs = size_add c.total_allocs 1 ∧
      (c.total_allocs + 1 < 2 ^ 64 → c'.total_allocs = c.total_allocs + 1) ∧
      c'.largest_alloc = max c.largest_alloc size ∧
      c'.peak = max c.peak c'.used) ∧
    ((hive_cell_align_alloc true (some c) size align).1 = none →
      (hive_cell_align_alloc true (some c) size align).2 = some c) ∧
    (∀ g name capacity calloc_res mmap_res realloc_ok c0 ops,
      (hive_cell_create true g name capacity calloc_res mmap_res realloc_ok).1 = some c0 →
      ∃ c', hive_cell_run true (some c0) ops = some c' ∧ c'.used ≤ c'.peak ∧
        c'.peak ≤ c'.capacity) := by
  refine ⟨?_, ?_, ?_⟩
  · intro p c' hr
    rcases align_alloc_debug_result c size align with hf | ⟨p2, c2, hr2, _, _, ht, hl, hp⟩
    · rw [hf] at hr
      simp at hr
    · rw [hr2] at hr
      simp only [Prod.mk.injEq, Option.some.injEq] at hr
      obtain ⟨_, rfl⟩ := hr
      refine ⟨ht, fun hlt => ?_, hl, hp⟩
      rw [ht]
      unfold size_add SIZE_MOD
      exact Nat.mod_eq_of_lt hlt
  · intro hn
    rcases align_alloc_debug_result c size align with hf | ⟨p2, c2, hr2, _⟩
    · rw [hf]
    · rw [hr2] at hn
      simp at hn
  · intro g name capacity calloc_res mmap_res realloc_ok c0 ops hc
    obtain ⟨hu, _, _, hp⟩ := hive_cell_create_fields true g name capacity calloc_res mmap_res
      realloc_ok c0 hc
    exact hive_cell_run_peak ops c0 (by rw [hu]; exact Nat.zero_le _) (by rw [hp]; exact Nat.zero_le _)

theorem debug_counters_tracked_witness :
    (({ hive_cell_fresh_debug with used := 16, total_allocs := 1, largest_alloc := 16,
                                            peak := 16 } : hive_cell).total_allocs =
        size_add hive_cell_fresh_debug.total_allocs 1 ∧
      (hive_cell_fresh_debug.total_allocs + 1 < 2 ^ 64 →
        ({ hive_cell_fresh_debug with used := 16, total_allocs := 1, largest_alloc := 16,
                                            peak := 16 } : hive_cell).total_allocs =
          hive_cell_fresh_debug.total_allocs + 1) ∧
      ({ hive_cell_fresh_debug with used := 16, total_allocs := 1, largest_alloc := 16,
                                            peak := 16 } : hive_cell).largest_alloc =
        max hive_cell_fresh_debug.largest_alloc 16 ∧
      ({ hive_cell_fresh_debug with used := 16, total_allocs := 1, largest_alloc := 16,
                                            peak := 16 } : hive_cell).peak =
        max hive_cell_fresh_debug.peak
          ({ hive_cell_fresh_debug with used := 16, total_allocs := 1, largest_alloc := 16,
                                            peak := 16 } : hive_cell).used) ∧
    (hive_cell_align_alloc true (some hive_cell_fresh_debug) 5000 16).2 = some hive_cell_fresh_debug ∧
    (∃ c', hive_cell_run true (some hive_cell_fresh_debug)
        [hive_cell_op.alloc 100, hive_cell_op.soft_reset, hive_cell_op.align_alloc 8 64,
          hive_cell_op.reset] = some c' ∧
      c'.used ≤ c'.peak ∧ c'.peak ≤ c'.capacity) :=
  ⟨(debug_counters_tracked hive_cell_fresh_debug 16 16).1 (hive_cell_fresh_debug.base + 0)
      { hive_cell_fresh_debug with used := 16, total_allocs := 1, largest_alloc := 16, peak := 16 }
      (by decide),
    (debug_counters_tracked hive_cell_fresh_debug 5000 16).2.1 (by decide),
    (debug_counters_tracked hive_cell_fresh_debug 16 16).2.2 hive_globals_running none 4096
      (some 0x1000) (some HIVE_ADDR_HINT) true hive_cell_fresh_debug
      [hive_cell_op.alloc 100, hive_cell_op.soft_reset, hive_cell_op.align_alloc 8 64,
        hive_cell_op.reset] (by decide)⟩


/-! ## Theorems: creation and the lifecycle state -/

theorem hive_cell_create_at_state (DEBUG : Bool) (g : hive_globals) (st : hive_state)
    (name : String) (A X : Nat) (calloc_res mmap_res : Option Nat) (realloc_ok : Bool) :
    hive_cell_create_at DEBUG { g with g_hive_state := st } name A X calloc_res mmap_res
        realloc_ok =
      ((hive_cell_create_at DEBUG g name A X calloc_res mmap_res realloc_ok).1,
        { (hive_cell_create_at DEBUG g name A X calloc_res mmap_res realloc_ok).2.1 with
          g_hive_state := st },
        (hive_cell_create_at DEBUG g name A X calloc_res mmap_res realloc_ok).2.2) := by
  unfold hive_cell_create_at
  cases calloc_res with
  | none => rfl
  | some block =>
    cases mmap_res with
    | none => rfl
    | some ptr => rfl

/-- C19 (amended): `hive_cell_create` does not consult the lifecycle state. Called with the
state set to any value (OFF, RUNNING or SHUTTING_DOWN) it returns the same cell, issues the same
calls, and leaves the same cursor, page size and registry as with the state the globals had, and
it leaves the lifecycle state as it was. -/
theorem create_ignores_lifecycle_state (DEBUG : Bool) (g : hive_globals) (st : hive_state)
    (name : Option String) (capacity : Nat) (calloc_res mmap_res : Option Nat)
    (realloc_ok : Bool) :
    hive_cell_create DEBUG { g with g_hive_state := st } name capacity calloc_res mmap_res
        realloc_ok =
      ((hive_cell_create DEBUG g name capacity calloc_res mmap_res realloc_ok).1,
        { (hive_cell_create DEBUG g name capacity calloc_res mmap_res realloc_ok).2.1 with
          g_hive_state := st },
        (hive_cell_create DEBUG g name capacity calloc_res mmap_res realloc_ok).2.2) := by
  by_cases h0 : capacity = 0
  · subst h0
    rw [hive_cell_create_zero, hive_cell_create_zero]
  · have hps : ({ g with g_hive_state := st } : hive_globals).g_sys_pagesize = g.g_sys_pagesize :=
      rfl
    rw [hive_cell_create_nonzero DEBUG _ name capacity _ _ realloc_ok h0,
      hive_cell_create_nonzero DEBUG g name capacity _ _ realloc_ok h0, hps]
    exact hive_cell_create_at_state DEBUG g st _ _ _ calloc_res mmap_res realloc_ok

/-- C19, as stated, fails. With the state OFF (before `hive_init`) a request of 2 MiB advances
the cursor from 0 to `0x200000` even when `reaper_calloc` fails, and produces and registers a cell
when the collaborators succeed. With the state SHUTTING_DOWN (after `hive_init` and
`hive_shutdown`) a request of 4096 bytes produces a cell, advances the cursor and adds a registry
entry. -/
theorem create_outside_running :
    hive_globals_zero.g_hive_state = hive_state.HIVE_STATE_OFF ∧
    hive_cell_create false hive_globals_zero none 0x200000 none none true =
      (none, { hive_globals_zero with g_hive_cursor := 0x200000 },
        [hive_event.cursor_fetch_add 0 0x200000]) ∧
    (hive_cell_create false hive_globals_zero none 0x200000 (some 0x1000) (some 0x200000)
        true).1 =
      some { hive_cell_fresh with base := 0x200000, capacity := 0x200000 } ∧
    (hive_cell_create false hive_globals_zero none 0x200000 (some 0x1000) (some 0x200000)
        true).2.1.g_hive_registry.cells = [0x1000] ∧
    (hive_lifecycle_run hive_globals_zero
      [hive_lifecycle_call.init 4096, hive_lifecycle_call.shutdown]).g_hive_state =
        hive_state.HIVE_STATE_SHUTTING_DOWN ∧
    (hive_cell_create false
      (hive_lifecycle_run hive_globals_zero
        [hive_lifecycle_call.init 4096, hive_lifecycle_call.shutdown])
      none 4096 (some 0x1000) (some HIVE_ADDR_HINT) true).1 = some hive_cell_fresh ∧
    (hive_cell_create false
      (hive_lifecycle_run hive_globals_zero
        [hive_lifecycle_call.init 4096, hive_lifecycle_call.shutdown])
      none 4096 (some 0x1000) (some HIVE_ADDR_HINT) true).2.1.g_hive_cursor =
        HIVE_ADDR_HINT + 4096 ∧
    (hive_cell_create false
      (hive_lifecycle_run hive_globals_zero
        [hive_lifecycle_call.init 4096, hive_lifecycle_call.shutdown])
      none 4096 (some 0x1000) (some HIVE_ADDR_HINT) true).2.1.g_hive_registry.cells =
        [0x1000] := by
  decide

/-! ## Theorems: `hive_nxtpow2` -/

theorem hive_nxtpow2_pow_two (j : Nat) (hj : j ≤ 63) : hive_nxtpow2 (2 ^ j) = 2 ^ j := by
  obtain ⟨m, _, hm, hle, hmin⟩ := hive_nxtpow2_spec (2 ^ j) (Nat.pow_pos (by norm_num))
    (Nat.pow_le_pow_right (by norm_num) hj)
  rw [hm]
  exact le_antisymm (Nat.pow_le_pow_right (by norm_num) (hmin j (le_refl _))) hle

/-- C20: on a 64-bit `size_t`, for every `v` with `1 <= v <= 2^63` `hive_nxtpow2 v` is the
smallest power of two that is at least `v`; it is the identity on the powers of two up to `2^63`
and applying it twice gives the same as applying it once; `hive_nxtpow2 0 = 1`; and for every `v`
with `2^63 < v < 2^64` it returns 0. -/
theorem hive_nxtpow2_values (v : Nat) :
    (1 ≤ v → v ≤ 2 ^ 63 →
      (∃ j, hive_nxtpow2 v = 2 ^ j ∧ v ≤ 2 ^ j ∧ ∀ i, v ≤ 2 ^ i → 2 ^ j ≤ 2 ^ i) ∧
      hive_nxtpow2 (hive_nxtpow2 v) = hive_nxtpow2 v) ∧
    (∀ j, j ≤ 63 → hive_nxtpow2 (2 ^ j) = 2 ^ j) ∧
    hive_nxtpow2 0 = 1 ∧
    hive_nxtpow2 (hive_nxtpow2 0) = hive_nxtpow2 0 ∧
    (2 ^ 63 < v → v < 2 ^ 64 → hive_nxtpow2 v = 0) := by
  refine ⟨?_, hive_nxtpow2_pow_two, by decide, by decide, ?_⟩
  · intro h1 h2
    obtain ⟨j, hj, hn, hle, hmin⟩ := hive_nxtpow2_spec v h1 h2
    refine ⟨⟨j, hn, hle, fun i hi => Nat.pow_le_pow_right (by norm_num) (hmin i hi)⟩, ?_⟩
    rw [hn]
    exact hive_nxtpow2_pow_two j hj
  · intro h1 h2
    rw [hive_nxtpow2_eq v 63 (by norm_num) h1 (by omega)]
    norm_num

theorem hive_nxtpow2_values_witness :
    ((∃ j, hive_nxtpow2 1000 = 2 ^ j ∧ 1000 ≤ 2 ^ j ∧ ∀ i, 1000 ≤ 2 ^ i → 2 ^ j ≤ 2 ^ i) ∧
      hive_nxtpow2 (hive_nxtpow2 1000) = hive_nxtpow2 1000) ∧
    hive_nxtpow2 (2 ^ 63) = 2 ^ 63 ∧
    hive_nxtpow2 (2 ^ 64 - 1) = 0 :=
  ⟨(hive_nxtpow2_values 1000).1 (by norm_num) (by norm_num),
    (hive_nxtpow2_values 1000).2.1 63 (by norm_num),
    (hive_nxtpow2_values (2 ^ 64 - 1)).2.2.2.2 (by norm_num) (by norm_num)⟩


/-! ## Theorems: hints, mappings and cells -/

theorem mmap_requests_append (a b : List hive_event) :
    mmap_requests (a ++ b) = mmap_requests a ++ mmap_requests b := by
  induction a with
  | nil => rfl
  | cons e t ih =>
    cases e <;> simp [mmap_requests, ih]

theorem hive_cell_create_at_mappings (DEBUG : Bool) (g : hive_globals) (name : String)
    (A X : Nat) (calloc_res mmap_res : Option Nat) (realloc_ok : Bool) :
    (mmap_requests (hive_cell_create_at DEBUG g name A X calloc_res mmap_res
        realloc_ok).2.2).Sublist [(g.g_hive_cursor, X)] ∧
      (created_range g.g_hive_cursor (hive_cell_create_at DEBUG g name A X calloc_res mmap_res
        realloc_ok).1).Sublist
        (mmap_requests (hive_cell_create_at DEBUG g name A X calloc_res mmap_res
          realloc_ok).2.2) := by
  unfold hive_cell_create_at
  cases calloc_res with
  | none => simp [mmap_requests, created_range]
  | some block =>
    cases mmap_res with
    | none => simp [mmap_requests, created_range]
    | some ptr =>
      by_cases hh : A = HIVE_PAGE_SIZE_HUGE
      · simp [mmap_requests, created_range, hh]
      · simp [mmap_requests, created_range, hh]

theorem hive_cell_create_mappings (DEBUG : Bool) (g : hive_globals) (name : Option String)
    (capacity : Nat) (calloc_res mmap_res : Option Nat) (realloc_ok : Bool) :
    (mmap_requests (hive_cell_create DEBUG g name capacity calloc_res mmap_res
        realloc_ok).2.2).Sublist (cursor_walk g.g_sys_pagesize g.g_hive_cursor [capacity]) ∧
      (created_range g.g_hive_cursor (hive_cell_create DEBUG g name capacity calloc_res mmap_res
        realloc_ok).1).Sublist
        (mmap_requests (hive_cell_create DEBUG g name capacity calloc_res mmap_res
          realloc_ok).2.2) := by
  by_cases h : capacity = 0
  · subst h
    rw [hive_cell_create_zero]
    exact ⟨by simp [mmap_requests], by simp [mmap_requests, created_range]⟩
  · have hw : cursor_walk g.g_sys_pagesize g.g_hive_cursor [capacity] =
        [(g.g_hive_cursor, (hive_cell_create_rounding g.g_sys_pagesize capacity).2)] := by
      simp only [cursor_walk, h, if_false]
    rw [hw, hive_cell_create_nonzero DEBUG g name capacity _ _ realloc_ok h]
    exact hive_cell_create_at_mappings DEBUG g _ _ _ calloc_res mmap_res realloc_ok

theorem hive_step_create_events (DEBUG : Bool) (s : hive_run_state) (name : Option String)
    (capacity : Nat) (calloc_res mmap_res : Option Nat) (realloc_ok : Bool)
    (r : Option hive_cell × hive_globals × List hive_event)
    (hr : hive_cell_create DEBUG s.g name capacity calloc_res mmap_res realloc_ok = r) :
    (hive_step DEBUG s (hive_op.create name capacity calloc_res mmap_res realloc_ok)).g = r.2.1 ∧
      (hive_step DEBUG s (hive_op.create name capacity calloc_res mmap_res realloc_ok)).events =
        s.events ++ r.2.2 := by
  subst hr
  exact ⟨rfl, rfl⟩

theorem cursor_walk_cons (ps cur capacity : Nat) (rest : List Nat) :
    cursor_walk ps cur (capacity :: rest) =
      cursor_walk ps cur [capacity] ++
        cursor_walk ps (if capacity = 0 then cur
          else size_add cur (hive_cell_create_rounding ps capacity).2) rest := by
  by_cases h : capacity = 0
  · simp [cursor_walk, h]
  · simp [cursor_walk, h]

theorem hive_step_destroy_cursor (DEBUG : Bool) (s : hive_run_state) (cell : Option hive_cell) :
    (hive_step DEBUG s (hive_op.destroy cell)).g.g_sys_pagesize = s.g.g_sys_pagesize ∧
      (hive_step DEBUG s (hive_op.destroy cell)).g.g_hive_cursor = s.g.g_hive_cursor ∧
      mmap_requests (hive_step DEBUG s (hive_op.destroy cell)).events =
        mmap_requests s.events := by
  cases cell with
  | none => simp [hive_step, hive_cell_destroy]
  | some c =>
    by_cases hb : c.base = 0
    · simp [hive_step, hive_cell_destroy, mmap_requests_append, mmap_requests, hb]
    · simp [hive_step, hive_cell_destroy, mmap_requests_append, mmap_requests, hb]

theorem hive_run_mappings (DEBUG : Bool) (ops : List hive_op) :
    ∀ s : hive_run_state, ∃ M,
      mmap_requests (hive_run DEBUG s ops).events = mmap_requests s.events ++ M ∧
      (created_ranges DEBUG s ops).Sublist M ∧
      M.Sublist (cursor_walk s.g.g_sys_pagesize s.g.g_hive_cursor (create_capacities ops)) := by
  induction ops with
  | nil =>
    intro s
    exact ⟨[], by simp [hive_run], by simp [created_ranges], by simp [create_capacities, cursor_walk]⟩
  | cons op rest ih =>
    intro s
    cases op with
    | create name capacity calloc_res mmap_res realloc_ok =>
      obtain ⟨eg, eev⟩ := hive_step_create_events DEBUG s name capacity calloc_res mmap_res
        realloc_ok _ rfl
      obtain ⟨_, h2, h3⟩ :=
        hive_cell_create_hints DEBUG s.g name capacity calloc_res mmap_res realloc_ok
      obtain ⟨m1, m2⟩ :=
        hive_cell_create_mappings DEBUG s.g name capacity calloc_res mmap_res realloc_ok
      obtain ⟨M', i1, i2, i3⟩ :=
        ih (hive_step DEBUG s (hive_op.create name capacity calloc_res mmap_res realloc_ok))
      rw [eg, h2, h3] at i3
      rw [eev, mmap_requests_append] at i1
      refine ⟨mmap_requests (hive_cell_create DEBUG s.g name capacity calloc_res mmap_res
        realloc_ok).2.2 ++ M', ?_, ?_, ?_⟩
      · rw [hive_run, i1, List.append_assoc]
      · rw [created_ranges]
        exact List.Sublist.append m2 i2
      · rw [create_capacities, cursor_walk_cons]
        exact List.Sublist.append m1 i3
    | destroy cell =>
      obtain ⟨d1, d2, d3⟩ := hive_step_destroy_cursor DEBUG s cell
      obtain ⟨M', i1, i2, i3⟩ := ih (hive_step DEBUG s (hive_op.destroy cell))
      rw [d1, d2] at i3
      rw [d3] at i1
      exact ⟨M', by rw [hive_run, i1], by rw [created_ranges]; exact i2,
        by rw [create_capacities]; exact i3⟩

theorem cursor_walk_operands (ps : Nat) (caps : List Nat) :
    ∀ cur, (cursor_walk ps cur caps).map Prod.snd =
      (caps.filter (fun c => c ≠ 0)).map (fun c => (hive_cell_create_rounding ps c).2) := by
  induction caps with
  | nil =>
    intro cur
    rfl
  | cons cap rest ih =>
    intro cur
    by_cases h : cap = 0
    · simp [cursor_walk, h, ih]
    · simp [cursor_walk, h, ih]

theorem hive_init_off_fields (g : hive_globals) (ps : Nat)
    (h : g.g_hive_state = hive_state.HIVE_STATE_OFF) :
    (hive_init g ps).1 = true ∧ (hive_init g ps).2.1.g_sys_pagesize = ps ∧
      (hive_init g ps).2.1.g_hive_cursor =
        if g.g_hive_cursor = 0 then HIVE_ADDR_HINT else g.g_hive_cursor := by
  rw [hive_init_off g ps h]
  by_cases hc : g.g_hive_cursor = 0
  · simp only [hc, if_true, and_self]
  · simp only [hc, if_false, and_self]

/-- C7 (amended): after a successful `hive_init` (the state was OFF) with a page size that is a
power of two, for every run of creations and destructions in which each requested capacity is at
most `2^63` and the cursor value after the init plus the amounts handed out stays below `2^64`:
the amounts the cursor advances by are the rounded capacities `hive_cell_create` computes for the
nonzero requests, in order; every `mmap` call is made at a hint with exactly that amount as its
length, and every cell returned has its hint and capacity among those calls; the first hint is
the cursor value after the init, which is `0x700000000000` when the cursor was still 0 at the
init and otherwise the value it had; each later hint is the previous hint plus the previous
rounded capacity; the ranges `[hint, hint + rounded capacity)`, and so the ranges of the cells,
are pairwise non-overlapping, and no hint is issued twice. -/
theorem cursor_hints_disjoint (DEBUG : Bool) (g : hive_globals) (ps k : Nat)
    (ops : List hive_op) (E : List hive_event)
    (hoff : g.g_hive_state = hive_state.HIVE_STATE_OFF) (hk : k < 64) (hps : ps = 2 ^ k)
    (hcap : ∀ c ∈ create_capacities ops, c ≤ 2 ^ 63)
    (hE : E = (hive_run DEBUG (hive_run_start (hive_init g ps).2.1) ops).events)
    (hsum : (hive_init g ps).2.1.g_hive_cursor + ((cursor_hints E).map Prod.snd).sum < 2 ^ 64) :
    (hive_init g ps).1 = true ∧
    ((hive_init g ps).2.1.g_hive_cursor =
      if g.g_hive_cursor = 0 then HIVE_ADDR_HINT else g.g_hive_cursor) ∧
    ((cursor_hints E).map Prod.snd =
      ((create_capacities ops).filter (fun c => c ≠ 0)).map
        (fun c => (hive_cell_create_rounding ps c).2)) ∧
    (mmap_requests E).Sublist (cursor_hints E) ∧
    (created_ranges DEBUG (hive_run_start (hive_init g ps).2.1) ops).Sublist (mmap_requests E) ∧
    (∀ h ∈ (cursor_hints E).head?, h.1 = (hive_init g ps).2.1.g_hive_cursor) ∧
    (cursor_hints E).Chain' (fun a b => b.1 = a.1 + a.2) ∧
    (cursor_hints E).Pairwise (fun a b => a.1 + a.2 ≤ b.1) ∧
    ((cursor_hints E).map Prod.fst).Nodup ∧
    (created_ranges DEBUG (hive_run_start (hive_init g ps).2.1) ops).Pairwise
      (fun a b => a.1 + a.2 ≤ b.1) := by
  obtain ⟨hret, hpage, hcur⟩ := hive_init_off_fields g ps hoff
  have e : cursor_hints E = cursor_walk ps (hive_init g ps).2.1.g_hive_cursor
      (create_capacities ops) := by
    have h := hive_run_hints DEBUG ops (hive_run_start (hive_init g ps).2.1)
    rw [show (hive_run_start (hive_init g ps).2.1).events = [] from rfl,
      show (hive_run_start (hive_init g ps).2.1).g = (hive_init g ps).2.1 from rfl, hpage,
      ← hE] at h
    rw [h]
    exact List.nil_append _
  obtain ⟨M, m1, m2, m3⟩ := hive_run_mappings DEBUG ops (hive_run_start (hive_init g ps).2.1)
  rw [show (hive_run_start (hive_init g ps).2.1).events = [] from rfl, ← hE] at m1
  rw [show (hive_run_start (hive_init g ps).2.1).g = (hive_init g ps).2.1 from rfl, hpage,
    ← e] at m3
  have hM : mmap_requests E = M := by
    rw [m1]
    exact List.nil_append _
  rw [← hM] at m2 m3
  rw [e] at hsum
  obtain ⟨i1, i2, i3, i4, _⟩ := cursor_walk_spec ps k hk hps (create_capacities ops)
    (hive_init g ps).2.1.g_hive_cursor hcap hsum
  rw [← e] at i1 i2 i3 i4
  refine ⟨hret, hcur, ?_, m3, m2, i1, i2, i3, i4, i3.sublist (m2.trans m3)⟩
  rw [e]
  exact cursor_walk_operands ps (create_capacities ops) _

theorem cursor_hints_disjoint_witness :
    (cursor_hints (hive_run false (hive_run_start (hive_init hive_globals_zero 4096).2.1) hive_ops_example).events =
        [(0x700000000000, 0x1000), (0x700000001000, 0x400000), (0x700000401000, 0x2000),
          (0x700000403000, 0x2000)] ∧
      mmap_requests (hive_run false (hive_run_start (hive_init hive_globals_zero 4096).2.1) hive_ops_example).events =
        [(0x700000000000, 0x1000), (0x700000401000, 0x2000), (0x700000403000, 0x2000)] ∧
      created_ranges false (hive_run_start (hive_init hive_globals_zero 4096).2.1) hive_ops_example =
        [(0x700000000000, 0x1000), (0x700000403000, 0x2000)]) ∧
    ((hive_init hive_globals_zero 4096).1 = true ∧
    ((hive_init hive_globals_zero 4096).2.1.g_hive_cursor =
      if hive_globals_zero.g_hive_cursor = 0 then HIVE_ADDR_HINT
      else hive_globals_zero.g_hive_cursor) ∧
    ((cursor_hints (hive_run false (hive_run_start (hive_init hive_globals_zero 4096).2.1) hive_ops_example).events).map Prod.snd =
      ((create_capacities hive_ops_example).filter (fun c => c ≠ 0)).map
        (fun c => (hive_cell_create_rounding 4096 c).2)) ∧
    (mmap_requests (hive_run false (hive_run_start (hive_init hive_globals_zero 4096).2.1) hive_ops_example).events).Sublist
      (cursor_hints (hive_run false (hive_run_start (hive_init hive_globals_zero 4096).2.1) hive_ops_example).events) ∧
    (created_ranges false (hive_run_start (hive_init hive_globals_zero 4096).2.1) hive_ops_example).Sublist
      (mmap_requests (hive_run false (hive_run_start (hive_init hive_globals_zero 4096).2.1) hive_ops_example).events) ∧
    (∀ h ∈ (cursor_hints (hive_run false (hive_run_start (hive_init hive_globals_zero 4096).2.1) hive_ops_example).events).head?,
      h.1 = (hive_init hive_globals_zero 4096).2.1.g_hive_cursor) ∧
    (cursor_hints (hive_run false (hive_run_start (hive_init hive_globals_zero 4096).2.1) hive_ops_example).events).Chain'
      (fun a b => b.1 = a.1 + a.2) ∧
    (cursor_hints (hive_run false (hive_run_start (hive_init hive_globals_zero 4096).2.1) hive_ops_example).events).Pairwise
      (fun a b => a.1 + a.2 ≤ b.1) ∧
    ((cursor_hints (hive_run false (hive_run_start (hive_init hive_globals_zero 4096).2.1) hive_ops_example).events).map
      Prod.fst).Nodup ∧
    (created_ranges false (hive_run_start (hive_init hive_globals_zero 4096).2.1) hive_ops_example).Pairwise
      (fun a b => a.1 + a.2 ≤ b.1)) :=
  ⟨by decide,
    cursor_hints_disjoint false hive_globals_zero 4096 12 hive_ops_example
      (hive_run false (hive_run_start (hive_init hive_globals_zero 4096).2.1) hive_ops_example).events
      rfl (by norm_num) (by norm_num) (by decide) rfl (by decide)⟩

/-- C7, as stated, fails. After `hive_init` with 4096-byte pages, the creations of capacities
`2^63`, `2^63`, 4096 get the hints `0x700000000000`, `0x700000000000 + 2^63` and, the cursor
having wrapped, `0x700000000000` again: a hint is issued twice, the first and third ranges
overlap, and the third hint is not the second hint plus the second rounded capacity. Two
creations of capacity `2^63 + 1` both get the hint `0x700000000000`, the cursor advancing
by 0. And when a 2 MiB creation is attempted before `hive_init`, the cursor is `0x200000` at the
init, which succeeds without seeding it, and the first creation after the init gets the hint
`0x200000`, not `0x700000000000`. -/
theorem cursor_hint_reissued :
    cursor_hints (hive_run false (hive_run_start (hive_init hive_globals_zero 4096).2.1)
        [hive_op.create none (2 ^ 63) (some 0x1000) none true,
          hive_op.create none (2 ^ 63) (some 0x1000) none true,
          hive_op.create none 4096 (some 0x1000) (some HIVE_ADDR_HINT) true]).events =
      [(0x700000000000, 2 ^ 63), (0x700000000000 + 2 ^ 63, 2 ^ 63), (0x700000000000, 4096)] ∧
    0x700000000000 ≠ 0x700000000000 + 2 ^ 63 + 2 ^ 63 ∧
    cursor_hints (hive_run false (hive_run_start (hive_init hive_globals_zero 4096).2.1)
        [hive_op.create none (2 ^ 63 + 1) (some 0x1000) none true,
          hive_op.create none (2 ^ 63 + 1) (some 0x1000) none true]).events =
      [(0x700000000000, 0), (0x700000000000, 0)] ∧
    (hive_init (hive_cell_create false hive_globals_zero none 0x200000 none none true).2.1
      4096).1 = true ∧
    cursor_hints (hive_run false
        (hive_run_start
          (hive_init (hive_cell_create false hive_globals_zero none 0x200000 none none true).2.1
            4096).2.1)
        [hive_op.create none 4096 (some 0x1000) (some 0x200000) true]).events =
      [(0x200000, 4096)] ∧
    0x200000 ≠ HIVE_ADDR_HINT := by
  decide

end Hive
